import Mathlib

/-!
# Makeup API: image service, style pipeline and upload handler

Shallow embedding of `internal/services/image_service.go`,
`internal/services/makeup_service.go` and `internal/handlers/makeup_handler.go`.

* Go `int` values that are sizes or pixel counts are natural numbers.
* `float64` arithmetic is IEEE-754 binary64 on non-negative values, modelled exactly
  (round to nearest, ties to even, 53-bit significand).  The exponent range is not
  bounded, which is exact for every value that arises from operands below `2 ^ 63`.
* Library code (image codecs, base64, `strings.ToLower`, `filepath.Join`, OpenCV) is
  taken as a parameter; the code of the repository is written out on top of it.
* The file system is a map from paths to file contents.  `os.Open` fails exactly when
  the file is missing; whether `os.Create`, `Write` and `Stat` fail is given by the
  environment, as part of the library parameters.
* A panic (a nil image handed to the encoder, an OpenCV exception) ends a call without
  a return value; it is an outcome of its own, next to a returned value and a returned
  error.
-/

/-! ## float64 -/

/-- Non-negative float64 value `num / den`.  A zero denominator stands for `+Inf`
(positive numerator) or `NaN` (zero numerator). -/
structure F64 where
  num : Nat
  den : Nat
deriving DecidableEq

/-- Exact rational value of a finite float. -/
def F64.toRat (x : F64) : ℚ := (x.num : ℚ) / (x.den : ℚ)

/-- Quotient `n / d` rounded to the nearest integer, ties to even. -/
def rneDiv (n d : Nat) : Nat :=
  let q := n / d
  let r := n % d
  if 2 * r < d then q
  else if d < 2 * r then q + 1
  else if q % 2 = 0 then q else q + 1

/-- Fuelled computation of the position of the leading bit. -/
def ilog2Aux : Nat → Nat → Nat
  | 0, _ => 0
  | fuel + 1, n => if n < 2 then 0 else ilog2Aux fuel (n / 2) + 1

/-- Position of the leading bit of `n`: `2 ^ ilog2 n ≤ n < 2 ^ (ilog2 n + 1)` for `0 < n`. -/
def ilog2 (n : Nat) : Nat := ilog2Aux n n

/-- Rounding of the exact quotient `x.num / x.den` to binary64: the quotient is scaled
by a power of two into `[2^52, 2^53)`, rounded to an integer significand (ties to even)
and scaled back.  Zero, `+Inf` and `NaN` are kept. -/
def f64Round (x : F64) : F64 :=
  if x.den = 0 then x
  else if x.num = 0 then ⟨0, 1⟩
  else
    let a := (52 + ilog2 x.den) - ilog2 x.num
    let b := ilog2 x.num - (52 + ilog2 x.den)
    let n0 := x.num * 2 ^ a
    let d0 := x.den * 2 ^ b
    if n0 < d0 * 2 ^ 52 then ⟨rneDiv (2 * n0) d0 * 2 ^ b, 2 ^ (a + 1)⟩
    else ⟨rneDiv n0 d0 * 2 ^ b, 2 ^ a⟩

/-- Conversion `float64(n)` of a non-negative Go `int`. -/
def f64OfInt (n : Nat) : F64 := f64Round ⟨n, 1⟩

/-- Quotient `x / y` in float64. -/
def f64Div (x y : F64) : F64 := f64Round ⟨x.num * y.den, x.den * y.num⟩

/-- Product `x * y` in float64. -/
def f64Mul (x y : F64) : F64 := f64Round ⟨x.num * y.num, x.den * y.den⟩

/-- Conversion `int(x)` of a non-negative float64: truncation. -/
def f64ToInt (x : F64) : Nat := x.num / x.den

/-! ## image_service.go -/

/-- Contents of a file or a decoded payload. -/
abbrev Bytes := List UInt8

/-- File system: contents of the file at each path, if there is one. -/
abbrev FS := String → Option Bytes

/-- Result of `os.Create` followed by writing `data`: the file holds exactly `data`. -/
def FS.write (fs : FS) (path : String) (data : Bytes) : FS :=
  fun p => if p = path then some data else fs p

/-- Go `color.RGBA`. -/
structure RGBA where
  R : Nat
  G : Nat
  B : Nat
  A : Nat
deriving DecidableEq

/-- Decoded `image.Image` with bounds `(0,0)-(width,height)`. -/
structure Image where
  width : Nat
  height : Nat
  At : Nat → Nat → RGBA

/-- Functions of the Go standard library used by the image service. -/
structure GoLib where
  /-- The function `strings.ToLower`. -/
  ToLower : String → String
  /-- The function `base64.StdEncoding.DecodeString`. -/
  DecodeString : String → Except String Bytes
  /-- The function `filepath.Join` on two elements. -/
  Join : String → String → String
  /-- The function `os.Create` on a path: its error, if any. -/
  Create : String → Option String
  /-- The method `File.Write` on the file created at a path: the bytes that reached the
  file and the error, if any. -/
  Write : String → Bytes → Bytes × Option String
  /-- The function `os.Stat` on a path: its error, if any. -/
  Stat : String → Option String

/-- Image codecs of the Go standard library, and the creation of the file they write. -/
structure ImageLib where
  /-- The function `os.Create` on the path an encoder writes to: its error, if any. -/
  Create : String → Option String
  /-- The function `image.Decode`: the image and the name of its format. -/
  Decode : Bytes → Except String (Image × String)
  /-- The function `jpeg.Encode` at a quality: bytes written and the error, if any. -/
  jpegEncode : Image → Nat → Bytes × Option String
  /-- The function `png.Encode`: bytes written and the error, if any. -/
  pngEncode : Image → Bytes × Option String

/-- Go `models.UploadedImage` (the creation time is never set by the service). -/
structure UploadedImage where
  ID : String
  Filename : String
  FilePath : String
  Format : String
  Size : Nat

/-- The function `strings.Contains(s, ",")`. -/
def containsComma (s : String) : Bool := s.data.contains ','

/-- Split of a character list at its first comma, if it has one. -/
def splitFirstComma : List Char → Option (List Char × List Char)
  | [] => none
  | c :: cs =>
    if c = ',' then some ([], cs)
    else match splitFirstComma cs with
      | none => none
      | some (before, after) => some (c :: before, after)

/-- The function `strings.SplitN(s, ",", 2)`. -/
def splitN2 (s : String) : List String :=
  match splitFirstComma s.data with
  | none => [s]
  | some (before, after) => [String.mk before, String.mk after]

/-- Directory of uploads, `ImageService.uploadDir` as set by `NewImageService`. -/
def uploadDir : String := "uploads"

/-- The method `ImageService.SaveImageFromBase64`, with the generated UUID as `imageID`. -/
def SaveImageFromBase64 (lib : GoLib) (fs : FS) (imageID : String)
    (imageData format : String) : FS × Except String UploadedImage :=
  let imageData :=
    if containsComma imageData then
      let parts := splitN2 imageData
      if parts.length = 2 then parts.getD 1 "" else imageData
    else imageData
  match lib.DecodeString imageData with
  | .error err => (fs, .error ("failed to decode base64 image: " ++ err))
  | .ok decoded =>
    let filename := imageID ++ "." ++ format
    let filePath := lib.Join uploadDir filename
    match lib.Create filePath with
    | some err => (fs, .error ("failed to create file: " ++ err))
    | none =>
      let written := lib.Write filePath decoded
      match written.2 with
      | some err => (fs.write filePath written.1, .error ("failed to write image data: " ++ err))
      | none =>
        match lib.Stat filePath with
        | some err => (fs.write filePath decoded, .error ("failed to get file info: " ++ err))
        | none =>
          (fs.write filePath decoded,
            .ok ⟨imageID, filename, filePath, format, decoded.length⟩)

/-- Loop of `ValidateImageFormat` over the allowed formats. -/
def formatAllowed (lowered : String) : List String → Bool
  | [] => false
  | allowed :: rest => if lowered = allowed then true else formatAllowed lowered rest

/-- The method `ImageService.ValidateImageFormat`: `none` is the nil error. -/
def ValidateImageFormat (lib : GoLib) (format : String) : Option String :=
  let allowedFormats := ["jpg", "jpeg", "png", "webp"]
  if formatAllowed (lib.ToLower format) allowedFormats then none
  else some ("unsupported image format: " ++ format)

/-- The method `ImageService.ValidateImageSize`: `none` is the nil error. -/
def ValidateImageSize (lib : GoLib) (imageData : String) : Option String :=
  let imageData :=
    if containsComma imageData then
      let parts := splitN2 imageData
      if parts.length = 2 then parts.getD 1 "" else imageData
    else imageData
  match lib.DecodeString imageData with
  | .error err => some ("failed to decode image: " ++ err)
  | .ok decoded =>
    let maxSize := 10 * 1024 * 1024
    if decoded.length > maxSize then
      some ("image too large: " ++ toString decoded.length ++ " bytes (max " ++
        toString maxSize ++ " bytes)")
    else none

/-- New dimensions computed by `ResizeImage` (lines 154-165) from the decoded width and
height and the two caps.  For `height = 0` the ratio is `+Inf` and the quotient is zero. -/
def newDimensions (width height maxWidth maxHeight : Nat) : Nat × Nat :=
  if width > maxWidth ∨ height > maxHeight then
    let ratio := f64Div (f64OfInt width) (f64OfInt height)
    if width > height then
      (maxWidth, f64ToInt (f64Div (f64OfInt maxWidth) ratio))
    else
      (f64ToInt (f64Mul (f64OfInt maxHeight) ratio), maxHeight)
  else (width, height)

/-- Source coordinate `x * width / newWidth` of the nearest-neighbour sampling. -/
def srcCoord (x size newSize : Nat) : Nat := x * size / newSize

/-- Image built by the resize loops of `ResizeImage` (lines 170-179). -/
def resample (img : Image) (newWidth newHeight : Nat) : Image where
  width := newWidth
  height := newHeight
  At := fun x y =>
    if x < newWidth ∧ y < newHeight then
      img.At (srcCoord x img.width newWidth) (srcCoord y img.height newHeight)
    else ⟨0, 0, 0, 0⟩

/-- The method `ImageService.ResizeImage`: the file system afterwards and the error
(`none` is nil). -/
def ResizeImage (codec : ImageLib) (fs : FS) (filePath : String)
    (maxWidth maxHeight : Nat) : FS × Option String :=
  match fs filePath with
  | none =>
    (fs, some ("failed to open image: open " ++ filePath ++ ": no such file or directory"))
  | some data =>
    match codec.Decode data with
    | .error err => (fs, some ("failed to decode image: " ++ err))
    | .ok (img, format) =>
      let width := img.width
      let height := img.height
      let dims := newDimensions width height maxWidth maxHeight
      let newWidth := dims.1
      let newHeight := dims.2
      if newWidth ≠ width ∨ newHeight ≠ height then
        let resized := resample img newWidth newHeight
        match codec.Create filePath with
        | some err => (fs, some ("failed to create resized image: " ++ err))
        | none =>
          if format = "jpeg" then
            let out := codec.jpegEncode resized 95
            match out.2 with
            | some err =>
              (fs.write filePath out.1, some ("failed to encode resized image: " ++ err))
            | none => (fs.write filePath out.1, none)
          else if format = "png" then
            let out := codec.pngEncode resized
            match out.2 with
            | some err =>
              (fs.write filePath out.1, some ("failed to encode resized image: " ++ err))
            | none => (fs.write filePath out.1, none)
          else
            (fs.write filePath [], some ("unsupported format for resizing: " ++ format))
      else (fs, none)

/-! ## makeup_service.go -/

/-- Go `models.MakeupStyle`. -/
structure MakeupStyle where
  ID : String
  Name : String
  Description : String
  Category : String
  Intensity : Nat
  PreviewURL : String
deriving DecidableEq

/-- Go `image.Point`. -/
structure Point where
  X : Int
  Y : Int
deriving DecidableEq

/-- Go `image.Rectangle`, the type of a detected face. -/
structure Rectangle where
  Min : Point
  Max : Point
deriving DecidableEq

/-- Width `r.Dx()` of a rectangle. -/
def Rectangle.Dx (r : Rectangle) : Int := r.Max.X - r.Min.X

/-- Height `r.Dy()` of a rectangle. -/
def Rectangle.Dy (r : Rectangle) : Int := r.Max.Y - r.Min.Y

/-- Go `Rectangle.Empty`. -/
def Rectangle.Empty (r : Rectangle) : Bool :=
  decide (r.Min.X ≥ r.Max.X) || decide (r.Min.Y ≥ r.Max.Y)

/-- Go `Rectangle.Intersect`: the largest rectangle contained in both, or the zero
rectangle when they do not overlap. -/
def Rectangle.Intersect (r s : Rectangle) : Rectangle :=
  let r1 : Rectangle :=
    ⟨⟨max r.Min.X s.Min.X, max r.Min.Y s.Min.Y⟩, ⟨min r.Max.X s.Max.X, min r.Max.Y s.Max.Y⟩⟩
  if r1.Empty then ⟨⟨0, 0⟩, ⟨0, 0⟩⟩ else r1

/-- One BGR pixel of an 8-bit three-channel matrix. -/
structure Pixel where
  B : Nat
  G : Nat
  R : Nat
deriving DecidableEq

/-- OpenCV matrix of type `CV_8UC3`: `px row col` is the pixel at a row and column. -/
structure Mat where
  rows : Nat
  cols : Nat
  px : Int → Int → Pixel

/-- Bounds `(0,0)-(cols,rows)` of a matrix as a rectangle. -/
def Mat.bounds (m : Mat) : Rectangle := ⟨⟨0, 0⟩, ⟨m.cols, m.rows⟩⟩

/-- OpenCV `Mat.Empty`. -/
def Mat.Empty (m : Mat) : Bool := m.rows = 0 || m.cols = 0

/-- A pixel position `(row, col)` lies in a rectangle. -/
def Rectangle.Contains (r : Rectangle) (row col : Int) : Prop :=
  r.Min.X ≤ col ∧ col < r.Max.X ∧ r.Min.Y ≤ row ∧ row < r.Max.Y

instance (r : Rectangle) (row col : Int) : Decidable (r.Contains row col) := by
  unfold Rectangle.Contains; infer_instance

/-- Condition under which OpenCV accepts a rectangle as a region of a matrix. -/
def Mat.ValidRegion (m : Mat) (r : Rectangle) : Prop :=
  0 ≤ r.Min.X ∧ 0 ≤ r.Dx ∧ r.Min.X + r.Dx ≤ m.cols ∧
  0 ≤ r.Min.Y ∧ 0 ≤ r.Dy ∧ r.Min.Y + r.Dy ≤ m.rows

instance (m : Mat) (r : Rectangle) : Decidable (m.ValidRegion r) := by
  unfold Mat.ValidRegion; infer_instance

/-- Calls made on the face region, in the order of execution, with their arguments. -/
inductive Call where
  | Region (face : Rectangle)
  | enhanceSkin (intensity : ℚ)
  | enhanceLips (lipColor : RGBA)
  | enhanceEyes (intensity : ℚ)
  | addBlush (blushColor : RGBA)
  | addContouring
  | addShimmer
  | addCreativeElements
deriving DecidableEq

/-- A matrix header that shares the pixels of `parent` inside `rect` (the result of
`Mat.Region`), together with the calls made on it so far. -/
structure View where
  parent : Mat
  rect : Rectangle
  calls : List Call

/-- Pixels seen through a view. -/
def View.read (v : View) : Mat where
  rows := v.rect.Dy.toNat
  cols := v.rect.Dx.toNat
  px := fun row col => v.parent.px (row + v.rect.Min.Y) (col + v.rect.Min.X)

/-- Writing a matrix through a view: the pixels of the parent inside the rectangle are
replaced, every other pixel of the parent is kept. -/
def View.write (v : View) (m : Mat) : View where
  parent :=
    { rows := v.parent.rows
      cols := v.parent.cols
      px := fun row col =>
        if v.rect.Contains row col then m.px (row - v.rect.Min.Y) (col - v.rect.Min.X)
        else v.parent.px row col }
  rect := v.rect
  calls := v.calls

/-- Record of a call on a view. -/
def View.log (v : View) (c : Call) : View := { v with calls := v.calls ++ [c] }

/-- The method `Mat.Region`: OpenCV raises an exception (`none`) when the rectangle is
not inside the matrix. -/
def Mat.Region (m : Mat) (r : Rectangle) : Option View :=
  if m.ValidRegion r then some ⟨m, r, [Call.Region r]⟩ else none

/-- Morphological operations of `gocv.MorphologyEx` used by the service. -/
inductive MorphType where
  | MorphClose
  | MorphGradient
  | MorphTopHat
deriving DecidableEq

/-- Image-processing functions of OpenCV (through gocv) used on the face region. -/
structure Cv where
  /-- The function `gocv.GaussianBlur` with a kernel size, sigma 0 and the default border. -/
  GaussianBlur : Mat → Nat × Nat → Mat
  /-- The function `gocv.AddWeighted`: `src1 * alpha + src2 * beta + gamma`, saturated. -/
  AddWeighted : Mat → ℚ → Mat → ℚ → ℚ → Mat
  /-- The function `gocv.MorphologyEx` with an elliptical structuring element of a size. -/
  MorphologyEx : Mat → MorphType → Nat × Nat → Mat
  /-- The function `gocv.Filter2D` to depth `CV_8U` with a 3x3 float kernel that is zero
  except for the listed entries, anchor `(-1,-1)`, delta 0 and the default border. -/
  Filter2D : Mat → List (Nat × Nat × ℚ) → Mat

/-- Matrix of a size with every pixel set to one scalar (`NewMatWithSize` then `SetTo`). -/
def constMat (rows cols : Nat) (p : Pixel) : Mat := ⟨rows, cols, fun _ _ => p⟩

/-- The method `MakeupService.enhanceSkin`. -/
def enhanceSkin (cv : Cv) (faceROI : View) (intensity : ℚ) : View :=
  let faceROI := faceROI.log (.enhanceSkin intensity)
  let blurred := cv.GaussianBlur faceROI.read (15, 15)
  faceROI.write (cv.AddWeighted faceROI.read (1 - intensity) blurred intensity 0)

/-- The method `MakeupService.enhanceLips`. -/
def enhanceLips (cv : Cv) (faceROI : View) (lipColor : RGBA) : View :=
  let faceROI := faceROI.log (.enhanceLips lipColor)
  let overlay := constMat faceROI.read.rows faceROI.read.cols ⟨lipColor.B, lipColor.G, lipColor.R⟩
  faceROI.write (cv.AddWeighted faceROI.read 0.8 overlay 0.2 0)

/-- The method `MakeupService.enhanceEyes`. -/
def enhanceEyes (cv : Cv) (faceROI : View) (intensity : ℚ) : View :=
  let faceROI := faceROI.log (.enhanceEyes intensity)
  let enhanced := cv.MorphologyEx faceROI.read .MorphClose (5, 5)
  faceROI.write (cv.AddWeighted faceROI.read (1 - intensity) enhanced intensity 0)

/-- The method `MakeupService.addBlush`. -/
def addBlush (cv : Cv) (faceROI : View) (blushColor : RGBA) : View :=
  let faceROI := faceROI.log (.addBlush blushColor)
  let overlay :=
    constMat faceROI.read.rows faceROI.read.cols ⟨blushColor.B, blushColor.G, blushColor.R⟩
  faceROI.write (cv.AddWeighted faceROI.read 0.9 overlay 0.1 0)

/-- The method `MakeupService.addContouring`. -/
def addContouring (cv : Cv) (faceROI : View) : View :=
  let faceROI := faceROI.log .addContouring
  let contoured := cv.MorphologyEx faceROI.read .MorphGradient (3, 3)
  faceROI.write (cv.AddWeighted faceROI.read 0.95 contoured 0.05 0)

/-- The method `MakeupService.addShimmer`. -/
def addShimmer (cv : Cv) (faceROI : View) : View :=
  let faceROI := faceROI.log .addShimmer
  let shimmer := cv.MorphologyEx faceROI.read .MorphTopHat (7, 7)
  faceROI.write (cv.AddWeighted faceROI.read 0.9 shimmer 0.1 0)

/-- The method `MakeupService.addCreativeElements`. -/
def addCreativeElements (cv : Cv) (faceROI : View) : View :=
  let faceROI := faceROI.log .addCreativeElements
  let kernel : List (Nat × Nat × ℚ) := [(0, 0, 1.2), (1, 1, 0.8), (2, 2, 1.1)]
  let creative := cv.Filter2D faceROI.read kernel
  faceROI.write (cv.AddWeighted faceROI.read 0.7 creative 0.3 0)

/-- The method `MakeupService.applyNaturalMakeup`. -/
def applyNaturalMakeup (cv : Cv) (faceROI : View) : View :=
  let faceROI := enhanceSkin cv faceROI 0.1
  let faceROI := enhanceLips cv faceROI ⟨255, 200, 200, 100⟩
  enhanceEyes cv faceROI 0.05

/-- The method `MakeupService.applyBridalMakeup`. -/
def applyBridalMakeup (cv : Cv) (faceROI : View) : View :=
  let faceROI := enhanceSkin cv faceROI 0.2
  let faceROI := enhanceLips cv faceROI ⟨255, 150, 150, 150⟩
  let faceROI := enhanceEyes cv faceROI 0.1
  addBlush cv faceROI ⟨255, 180, 180, 80⟩

/-- The method `MakeupService.applyEditorialMakeup`. -/
def applyEditorialMakeup (cv : Cv) (faceROI : View) : View :=
  let faceROI := enhanceSkin cv faceROI 0.3
  let faceROI := enhanceLips cv faceROI ⟨200, 50, 50, 200⟩
  let faceROI := enhanceEyes cv faceROI 0.2
  addContouring cv faceROI

/-- The method `MakeupService.applyEveningMakeup`. -/
def applyEveningMakeup (cv : Cv) (faceROI : View) : View :=
  let faceROI := enhanceSkin cv faceROI 0.25
  let faceROI := enhanceLips cv faceROI ⟨180, 30, 30, 180⟩
  let faceROI := enhanceEyes cv faceROI 0.15
  addShimmer cv faceROI

/-- The method `MakeupService.applyProfessionalMakeup`. -/
def applyProfessionalMakeup (cv : Cv) (faceROI : View) : View :=
  let faceROI := enhanceSkin cv faceROI 0.15
  let faceROI := enhanceLips cv faceROI ⟨220, 180, 180, 120⟩
  enhanceEyes cv faceROI 0.08

/-- The method `MakeupService.applyCreativeMakeup`. -/
def applyCreativeMakeup (cv : Cv) (faceROI : View) : View :=
  let faceROI := enhanceSkin cv faceROI 0.4
  let faceROI := enhanceLips cv faceROI ⟨100, 50, 200, 200⟩
  let faceROI := enhanceEyes cv faceROI 0.3
  addCreativeElements cv faceROI

/-- The method `MakeupService.applyMakeupToFace`: the calls made on the face region and
the returned matrix (`none` when `Region` raises). -/
def applyMakeupToFace (cv : Cv) (img : Mat) (face : Rectangle) (style : MakeupStyle) :
    List Call × Option Mat :=
  let result := img
  match result.Region face with
  | none => ([Call.Region face], none)
  | some faceROI =>
    let faceROI :=
      if style.ID = "natural" then applyNaturalMakeup cv faceROI
      else if style.ID = "bridal" then applyBridalMakeup cv faceROI
      else if style.ID = "editorial" then applyEditorialMakeup cv faceROI
      else if style.ID = "evening" then applyEveningMakeup cv faceROI
      else if style.ID = "professional" then applyProfessionalMakeup cv faceROI
      else if style.ID = "creative" then applyCreativeMakeup cv faceROI
      else applyNaturalMakeup cv faceROI
    (faceROI.calls, some faceROI.parent)

/-- Styles registered by `MakeupService.initializeStyles`, in source order. -/
def initialStyles : List MakeupStyle :=
  [ ⟨"natural", "Natural Beauty", "Subtle enhancement for everyday wear", "everyday", 3, ""⟩,
    ⟨"bridal", "Bridal Glow", "Romantic and timeless bridal makeup", "bridal", 6, ""⟩,
    ⟨"editorial", "Editorial Bold", "High-fashion editorial look", "editorial", 9, ""⟩,
    ⟨"evening", "Evening Glam", "Dramatic evening makeup", "special-event", 8, ""⟩,
    ⟨"professional", "Professional Polish", "Business-appropriate makeup", "everyday", 4, ""⟩,
    ⟨"creative", "Creative Artistry", "Bold and experimental makeup", "editorial", 10, ""⟩ ]

/-- Go `MakeupService`: the map from style id to style, as an association list with
one entry per key. -/
structure MakeupService where
  styles : List (String × MakeupStyle)

/-- Map assignment `m[key] = value`. -/
def mapSet (m : List (String × MakeupStyle)) (key : String) (value : MakeupStyle) :
    List (String × MakeupStyle) :=
  m.filter (fun kv => kv.1 ≠ key) ++ [(key, value)]

/-- The method `MakeupService.initializeStyles`. -/
def initializeStyles (ms : MakeupService) : MakeupService :=
  ⟨initialStyles.foldl (fun m style => mapSet m style.ID style) ms.styles⟩

/-- The constructor `NewMakeupService`. -/
def NewMakeupService : MakeupService := initializeStyles ⟨[]⟩

/-- The method `MakeupService.GetStyle`: the style and whether it exists. -/
def GetStyle (ms : MakeupService) (styleID : String) : MakeupStyle × Bool :=
  match ms.styles.find? (fun kv => kv.1 = styleID) with
  | some kv => (kv.2, true)
  | none => (⟨"", "", "", "", 0, ""⟩, false)

/-- Order in which the Go runtime ranges over a map: some arrangement of its entries. -/
structure MapOrder where
  /-- Entries in the order of one `range` loop. -/
  iterate : List (String × MakeupStyle) → List (String × MakeupStyle)
  /-- Every entry is visited exactly once. -/
  perm : ∀ m, (iterate m).Perm m

/-- The method `MakeupService.GetAvailableStyles`. -/
def GetAvailableStyles (order : MapOrder) (ms : MakeupService) : List MakeupStyle :=
  (order.iterate ms.styles).foldl (fun styles kv => styles ++ [kv.2]) []

/-- Functions of gocv that read, detect and encode. -/
structure Vision where
  /-- The function `gocv.IMRead` in colour mode on the contents of the file: an empty
  matrix when the file is missing or cannot be decoded. -/
  IMRead : Option Bytes → Mat
  /-- The method `CascadeClassifier.Load` on a file name. -/
  Load : String → Bool
  /-- The method `CascadeClassifier.DetectMultiScale`. -/
  DetectMultiScale : Mat → List Rectangle
  /-- The function `gocv.IMEncode` to JPEG. -/
  IMEncode : Mat → Except String Bytes

/-- The method `MakeupService.matToImage`: `none` is the nil image. -/
def matToImage (vision : Vision) (codec : ImageLib) (mat : Mat) : Option Image :=
  match vision.IMEncode mat with
  | .error _ => none
  | .ok buf =>
    match codec.Decode buf with
    | .error _ => none
    | .ok (img, _) => some img

/-- Way a call ends: with a returned value, with a returned error, or with a panic. -/
inductive CallResult (α : Type) where
  | ok (value : α)
  | error (message : String)
  | panic (reason : String)
deriving DecidableEq

/-- Outcome of `MakeupService.ApplyMakeupStyle`. -/
structure ApplyOutcome where
  /-- File system afterwards. -/
  fs : FS
  /-- Calls made on the face region (empty when that point is not reached). -/
  calls : List Call
  /-- Returned path, returned error, or panic. -/
  result : CallResult String

/-- The method `MakeupService.ApplyMakeupStyle`, with the generated UUID as `resultID`.
An OpenCV exception raised by `Region` is a panic before any file is created; a nil
image from `matToImage` is a panic inside `jpeg.Encode`, after `os.Create` has made the
result file.  The three-element `filepath.Join` is two joins. -/
def ApplyMakeupStyle (ms : MakeupService) (cv : Cv) (vision : Vision) (codec : ImageLib)
    (lib : GoLib) (fs : FS) (resultID : String) (imagePath styleID : String) : ApplyOutcome :=
  let found := GetStyle ms styleID
  let style := found.1
  if ¬ found.2 then ⟨fs, [], .error ("style " ++ styleID ++ " not found")⟩
  else
    let img := vision.IMRead (fs imagePath)
    if img.Empty then ⟨fs, [], .error ("failed to load image: " ++ imagePath)⟩
    else if ¬ vision.Load "haarcascade_frontalface_alt.xml" then
      ⟨fs, [], .error "failed to load face cascade classifier"⟩
    else
      match vision.DetectMultiScale img with
      | [] => ⟨fs, [], .error "no faces detected in the image"⟩
      | face :: _ =>
        match applyMakeupToFace cv img face style with
        | (calls, none) => ⟨fs, calls, .panic "OpenCV exception: region outside the matrix"⟩
        | (calls, some resultImg) =>
          let resultPath := lib.Join (lib.Join "uploads" "results") (resultID ++ ".jpg")
          let resultImage := matToImage vision codec resultImg
          match codec.Create resultPath with
          | some err => ⟨fs, calls, .error ("failed to create result file: " ++ err)⟩
          | none =>
            match resultImage with
            | none => ⟨fs.write resultPath [], calls, .panic "nil image in jpeg.Encode"⟩
            | some resultImage =>
              let out := codec.jpegEncode resultImage 95
              match out.2 with
              | some err =>
                ⟨fs.write resultPath out.1, calls,
                  .error ("failed to encode result image: " ++ err)⟩
              | none => ⟨fs.write resultPath out.1, calls, .ok resultPath⟩

/-! ## makeup_handler.go -/

/-- Go `models.UploadRequest`. -/
structure UploadRequest where
  ImageData : String
  Format : String

/-- HTTP status and Go `models.APIResponse` written by a handler. -/
structure Response (α : Type) where
  status : Nat
  Success : Bool
  Message : String
  Data : Option α
  Error : String

/-- The handler `MakeupHandler.UploadImage`.  `bound` is the outcome of
`c.ShouldBindJSON(&req)` and `imageID` the UUID generated by the image service. -/
def UploadImage (lib : GoLib) (codec : ImageLib) (fs : FS) (imageID : String)
    (bound : Except String UploadRequest) : FS × Response UploadedImage :=
  match bound with
  | .error err => (fs, ⟨400, false, "Invalid request format", none, err⟩)
  | .ok req =>
    match ValidateImageFormat lib req.Format with
    | some err => (fs, ⟨400, false, "Invalid image format", none, err⟩)
    | none =>
      match ValidateImageSize lib req.ImageData with
      | some err => (fs, ⟨400, false, "Image validation failed", none, err⟩)
      | none =>
        match SaveImageFromBase64 lib fs imageID req.ImageData req.Format with
        | (fs1, .error err) => (fs1, ⟨500, false, "Failed to save image", none, err⟩)
        | (fs1, .ok uploadedImage) =>
          match ResizeImage codec fs1 uploadedImage.FilePath 1920 1080 with
          | (fs2, some err) => (fs2, ⟨500, false, "Failed to process image", none, err⟩)
          | (fs2, none) =>
            (fs2, ⟨200, true, "Image uploaded successfully", some uploadedImage, ""⟩)

/-- Go `models.MakeupApplicationRequest`. -/
structure MakeupApplicationRequest where
  ImageID : String
  StyleID : String

/-- Go `models.ProcessingResult`; the times are readings of the clock, 0 when unset. -/
structure ProcessingResult where
  ID : String
  OriginalID : String
  StyleID : String
  Status : String
  ResultURL : String
  Error : String
  CreatedAt : Nat
  CompletedAt : Nat

/-- Functions of `path/filepath` used by the handlers besides `Join`. -/
structure PathLib where
  /-- The function `filepath.Abs`. -/
  Abs : String → Except String String
  /-- The function `filepath.Base`. -/
  Base : String → String

/-- The method `ImageService.GetImageURL`. -/
def GetImageURL (paths : PathLib) (filePath : String) : String :=
  "/uploads/" ++ paths.Base filePath

/-- Outcome of the apply handler. -/
structure ApplyHandlerOutcome where
  /-- File system afterwards. -/
  fs : FS
  /-- Image path passed to `MakeupService.ApplyMakeupStyle`, when that call is reached. -/
  opened : Option String
  /-- Response written. -/
  response : Response ProcessingResult

/-- The handler `MakeupHandler.ApplyMakeupStyle` (the service method has the plain name).
`styleID` is the path parameter, `bound` the outcome of `c.ShouldBindJSON(&req)`,
`resultID` and `serviceResultID` the UUIDs generated by the handler and by the service,
`created` and `completed` the clock readings.  After a panic in the service the recovery
middleware aborts the request with status 500 and no response body. -/
def ApplyMakeupStyleHandler (ms : MakeupService) (cv : Cv) (vision : Vision)
    (codec : ImageLib) (lib : GoLib) (paths : PathLib) (fs : FS)
    (resultID serviceResultID : String) (created completed : Nat) (styleID : String)
    (bound : Except String MakeupApplicationRequest) : ApplyHandlerOutcome :=
  match bound with
  | .error err => ⟨fs, none, ⟨400, false, "Invalid request format", none, err⟩⟩
  | .ok req =>
    let found := GetStyle ms styleID
    if ¬ found.2 then
      ⟨fs, none, ⟨404, false, "Makeup style not found", none,
        "Style " ++ styleID ++ " does not exist"⟩⟩
    else
      let imagePath := lib.Join "uploads" (req.ImageID ++ ".jpg")
      match paths.Abs imagePath with
      | .error _ =>
        ⟨fs, none, ⟨404, false, "Image not found", none,
          "Image " ++ req.ImageID ++ " does not exist"⟩⟩
      | .ok _ =>
        let result : ProcessingResult :=
          ⟨resultID, req.ImageID, styleID, "processing", "", "", created, 0⟩
        let out := ApplyMakeupStyle ms cv vision codec lib fs serviceResultID imagePath styleID
        match out.result with
        | .panic _ => ⟨out.fs, some imagePath, ⟨500, false, "", none, ""⟩⟩
        | .error err =>
          ⟨out.fs, some imagePath, ⟨500, false, "Failed to apply makeup style",
            some { result with Status := "failed", Error := err, CompletedAt := completed },
            err⟩⟩
        | .ok resultPath =>
          ⟨out.fs, some imagePath, ⟨200, true, "Makeup applied successfully",
            some { result with Status := "completed", ResultURL := GetImageURL paths resultPath,
                               CompletedAt := completed },
            ""⟩⟩

/-! ## Statements of the specification -/

/-- Dimension rule of the specification for `downscale`: with `r = w / h` in exact
arithmetic, `(max_w, ⌊max_w / r⌋)` when `w > h` and `(⌊max_h * r⌋, max_h)` otherwise,
when a dimension exceeds its cap. -/
def specDimensions (w h maxW maxH : Nat) : Nat × Nat :=
  if w > maxW ∨ h > maxH then
    if w > h then (maxW, ⌊(maxW : ℚ) / ((w : ℚ) / (h : ℚ))⌋₊)
    else (⌊(maxH : ℚ) * ((w : ℚ) / (h : ℚ))⌋₊, maxH)
  else (w, h)

/-- A character other than the comma. -/
def notComma (c : Char) : Bool := c != ','

/-- Payload of an upload according to the specification: the text after the first
comma when there is one, the whole string otherwise. -/
def specPayload (s : String) : String :=
  match s.data.dropWhile notComma with
  | [] => s
  | _ :: rest => String.mk rest

/-- Primitive operations of the specification, with their parameters. -/
inductive Op where
  | smooth_skin (i : ℚ)
  | tint_overlay (r g b : Nat)
  | enhance_eyes (i : ℚ)
  | add_blush (r g b : Nat)
  | add_contouring
  | add_shimmer
  | add_creative
deriving DecidableEq

/-- Per-style operation sequences of the specification. -/
def specSequence (style : String) : List Op :=
  if style = "natural" then
    [.smooth_skin 0.1, .tint_overlay 255 200 200, .enhance_eyes 0.05]
  else if style = "bridal" then
    [.smooth_skin 0.2, .tint_overlay 255 150 150, .enhance_eyes 0.1, .add_blush 255 180 180]
  else if style = "editorial" then
    [.smooth_skin 0.3, .tint_overlay 200 50 50, .enhance_eyes 0.2, .add_contouring]
  else if style = "evening" then
    [.smooth_skin 0.25, .tint_overlay 180 30 30, .enhance_eyes 0.15, .add_shimmer]
  else if style = "professional" then
    [.smooth_skin 0.15, .tint_overlay 220 180 180, .enhance_eyes 0.08]
  else if style = "creative" then
    [.smooth_skin 0.4, .tint_overlay 100 50 200, .enhance_eyes 0.3, .add_creative]
  else []

/-- Primitive operations of the specification on the face region `R`, a view of the image
that is mutated in place; `R ← a·R + b·Y` writes the saturated weighted sum through the
view.  Colours are given as red, green, blue and become BGR pixels. -/
def specPrimitive (cv : Cv) : Op → View → View
  | .smooth_skin i, R =>
    let B := cv.GaussianBlur R.read (15, 15)
    R.write (cv.AddWeighted R.read (1 - i) B i 0)
  | .tint_overlay r g b, R =>
    let O := constMat R.read.rows R.read.cols ⟨b, g, r⟩
    R.write (cv.AddWeighted R.read 0.8 O 0.2 0)
  | .enhance_eyes i, R =>
    let E := cv.MorphologyEx R.read .MorphClose (5, 5)
    R.write (cv.AddWeighted R.read (1 - i) E i 0)
  | .add_blush r g b, R =>
    let O := constMat R.read.rows R.read.cols ⟨b, g, r⟩
    R.write (cv.AddWeighted R.read 0.9 O 0.1 0)
  | .add_contouring, R =>
    let G := cv.MorphologyEx R.read .MorphGradient (3, 3)
    R.write (cv.AddWeighted R.read 0.95 G 0.05 0)
  | .add_shimmer, R =>
    let T := cv.MorphologyEx R.read .MorphTopHat (7, 7)
    R.write (cv.AddWeighted R.read 0.9 T 0.1 0)
  | .add_creative, R =>
    let C := cv.Filter2D R.read [(0, 0, 1.2), (1, 1, 0.8), (2, 2, 1.1)]
    R.write (cv.AddWeighted R.read 0.7 C 0.3 0)

/-- Run of an operation sequence of the specification on the face region, in order. -/
def specPipeline (cv : Cv) (ops : List Op) (R : View) : View :=
  ops.foldl (fun R op => specPrimitive cv op R) R

/-- Name of a call on the face region in the vocabulary of the specification; the
extraction of the region is not an operation of the table. -/
def Call.toOp : Call → Option Op
  | .Region _ => none
  | .enhanceSkin i => some (.smooth_skin i)
  | .enhanceLips c => some (.tint_overlay c.R c.G c.B)
  | .enhanceEyes i => some (.enhance_eyes i)
  | .addBlush c => some (.add_blush c.R c.G c.B)
  | .addContouring => some .add_contouring
  | .addShimmer => some .add_shimmer
  | .addCreativeElements => some .add_creative

/-- Primitive operations run on the face region, read off the calls. -/
def opsOf (calls : List Call) : List Op := calls.filterMap Call.toOp

/-- Smoothing operation. -/
def Op.isSmooth : Op → Bool
  | .smooth_skin _ => true
  | _ => false

/-- Constant-colour overlay. -/
def Op.isOverlay : Op → Bool
  | .tint_overlay _ _ _ => true
  | .add_blush _ _ _ => true
  | _ => false

/-- Tint overlay. -/
def Op.isTint : Op → Bool
  | .tint_overlay _ _ _ => true
  | _ => false

/-- Morphological or filter operation. -/
def Op.isMorph : Op → Bool
  | .enhance_eyes _ => true
  | .add_contouring => true
  | .add_shimmer => true
  | .add_creative => true
  | _ => false

/-- Every operation of the first kind comes before every operation of the second kind. -/
def allBefore (p q : Op → Bool) (l : List Op) : Prop :=
  ∀ i j : Fin l.length, p (l.get i) = true → q (l.get j) = true → i < j

/-- The six identifiers of the style catalog. -/
def catalogIds : List String :=
  ["natural", "bridal", "editorial", "evening", "professional", "creative"]

/-- Relation between a view and a later state of it: same rectangle, same size of the
parent, and the same parent pixels outside the rectangle. -/
def Framed (v0 v : View) : Prop :=
  v.rect = v0.rect ∧ v.parent.rows = v0.parent.rows ∧ v.parent.cols = v0.parent.cols ∧
  ∀ row col, ¬ v0.rect.Contains row col → v.parent.px row col = v0.parent.px row col


/-! ## Sample values for evaluation -/

/-- Image-processing library whose blend returns a white matrix of the size of its first
argument and whose other operations return their first argument. -/
def sampleCv : Cv where
  GaussianBlur := fun m _ => m
  AddWeighted := fun m _ _ _ _ => ⟨m.rows, m.cols, fun _ _ => ⟨255, 255, 255⟩⟩
  MorphologyEx := fun m _ _ => m
  Filter2D := fun m _ => m

/-- Black 4x4 matrix. -/
def sampleMat : Mat := ⟨4, 4, fun _ _ => ⟨0, 0, 0⟩⟩

/-- Rectangle `(1,1)-(3,3)`, inside a 4x4 matrix. -/
def sampleFace : Rectangle := ⟨⟨1, 1⟩, ⟨3, 3⟩⟩

/-- Rectangle `(2,2)-(6,6)`, which extends past the edge of a 4x4 matrix. -/
def sampleFaceOutside : Rectangle := ⟨⟨2, 2⟩, ⟨6, 6⟩⟩

/-- Reader and detector that load the black 4x4 matrix and detect one given face. -/
def sampleVision (face : Rectangle) : Vision where
  IMRead := fun _ => sampleMat
  Load := fun _ => true
  DetectMultiScale := fun _ => [face]
  IMEncode := fun _ => .ok []

/-- Codec that decodes every file to a black 4x4 JPEG and encodes to the empty file. -/
def sampleCodec : ImageLib where
  Create := fun _ => none
  Decode := fun _ => .ok (⟨4, 4, fun _ _ => ⟨0, 0, 0, 0⟩⟩, "jpeg")
  jpegEncode := fun _ _ => ([], none)
  pngEncode := fun _ => ([], none)

/-- Standard library with ASCII lower-casing, a decoder that yields one zero byte per
character, path joining with a slash, and file operations that succeed. -/
def sampleLib : GoLib where
  ToLower := fun s => String.mk (s.data.map Char.toLower)
  DecodeString := fun s => .ok (List.replicate s.length 0)
  Join := fun a b => a ++ "/" ++ b
  Create := fun _ => none
  Write := fun _ data => (data, none)
  Stat := fun _ => none

/-- Style value with a given id and no other data. -/
def styleWithId (id : String) : MakeupStyle := ⟨id, "", "", "", 0, ""⟩

/-- Catalog table of the specification: id, name, category and intensity. -/
def specCatalog : List (String × String × String × Nat) :=
  [ ("natural", "Natural Beauty", "everyday", 3),
    ("bridal", "Bridal Glow", "bridal", 6),
    ("editorial", "Editorial Bold", "editorial", 9),
    ("evening", "Evening Glam", "special-event", 8),
    ("professional", "Professional Polish", "everyday", 4),
    ("creative", "Creative Artistry", "editorial", 10) ]

/-- Map order that ranges over the entries as stored. -/
def sampleOrder : MapOrder := ⟨fun m => m, fun m => List.Perm.refl m⟩

/-- Path functions: `Abs` under the directory `/srv`, `Base` as the text after the last
slash. -/
def samplePaths : PathLib where
  Abs := fun p => .ok ("/srv/" ++ p)
  Base := fun p => String.mk (p.data.reverse.takeWhile (fun c => c != '/')).reverse

/-! # Theorems -/

/-! ## Rounding lemmas -/

theorem ilog2Aux_spec (fuel : Nat) : ∀ n, 0 < n → n ≤ fuel →
    2 ^ ilog2Aux fuel n ≤ n ∧ n < 2 ^ (ilog2Aux fuel n + 1) := by
  induction fuel with
  | zero => intro n h0 h1; omega
  | succ f ih =>
    intro n h0 h1
    unfold ilog2Aux
    by_cases h2 : n < 2
    · simp only [h2, if_true]
      constructor <;> simp <;> omega
    · simp only [h2, if_false]
      have hn : 0 < n / 2 := Nat.div_pos (by omega) (by omega)
      obtain ⟨l, u⟩ := ih (n / 2) hn (by omega)
      constructor
      · rw [pow_succ]; omega
      · rw [pow_succ]; omega

theorem ilog2_spec (n : Nat) (h : 0 < n) : 2 ^ ilog2 n ≤ n ∧ n < 2 ^ (ilog2 n + 1) :=
  ilog2Aux_spec n n h le_rfl

theorem rneDiv_ge (n d k : Nat) (hd : 0 < d) (h : k * d ≤ n) : k ≤ rneDiv n d := by
  have hq : k ≤ n / d := (Nat.le_div_iff_mul_le hd).2 h
  unfold rneDiv
  simp only
  split_ifs <;> omega

theorem rneDiv_le (n d k : Nat) (hd : 0 < d) (h : n ≤ k * d) : rneDiv n d ≤ k := by
  have hmod := Nat.div_add_mod n d
  have hr : n % d < d := Nat.mod_lt n hd
  have hq : n / d ≤ k := by
    have : n / d ≤ k * d / d := Nat.div_le_div_right h
    rwa [Nat.mul_div_cancel _ hd] at this
  unfold rneDiv
  simp only
  by_cases hr0 : n % d = 0
  · have : 2 * (n % d) < d := by omega
    simp [this, hq]
  · have hlt : n / d < k := by
      by_contra hc
      have hk : k = n / d := by omega
      rw [hk] at h
      have : d * (n / d) = n / d * d := Nat.mul_comm _ _
      omega
    split_ifs <;> omega

theorem rneDiv_near (n d : Nat) (hd : 0 < d) :
    2 * (rneDiv n d * d) ≤ 2 * n + d ∧ 2 * n ≤ 2 * (rneDiv n d * d) + d := by
  have hmod := Nat.div_add_mod n d
  have hr : n % d < d := Nat.mod_lt n hd
  have hc : d * (n / d) = n / d * d := Nat.mul_comm _ _
  unfold rneDiv
  simp only
  split_ifs <;> (try rw [Nat.add_mul]) <;> omega

theorem f64Round_scale (n d a b P Q : Nat) (hnl : P ≤ n) (hnu : n < P * 2)
    (hdl : Q ≤ d) (hdu : d < Q * 2) (key : P * 2 ^ a = 2 ^ 52 * Q * 2 ^ b) :
    n * 2 ^ a < 2 ^ 53 * (d * 2 ^ b) ∧ 2 ^ 52 * (d * 2 ^ b) < 2 * (n * 2 ^ a) := by
  have hA : 0 < 2 ^ a := by positivity
  have hB : 0 < 2 ^ b := by positivity
  have h1 : P * 2 ^ a ≤ n * 2 ^ a := Nat.mul_le_mul_right _ hnl
  have h2 : n * 2 ^ a < P * 2 * 2 ^ a := Nat.mul_lt_mul_of_pos_right hnu hA
  have h3 : Q * 2 ^ b ≤ d * 2 ^ b := Nat.mul_le_mul_right _ hdl
  have h4 : d * 2 ^ b < Q * 2 * 2 ^ b := Nat.mul_lt_mul_of_pos_right hdu hB
  constructor
  · have e1 : P * 2 * 2 ^ a = 2 ^ 53 * (Q * 2 ^ b) := by
      have : P * 2 * 2 ^ a = 2 * (P * 2 ^ a) := by ring
      rw [this, key]; ring
    have : 2 ^ 53 * (Q * 2 ^ b) ≤ 2 ^ 53 * (d * 2 ^ b) := Nat.mul_le_mul_left _ h3
    omega
  · have e1 : 2 ^ 52 * (Q * 2 * 2 ^ b) = 2 * (P * 2 ^ a) := by
      rw [key]; ring
    have : 2 ^ 52 * (d * 2 ^ b) < 2 ^ 52 * (Q * 2 * 2 ^ b) :=
      Nat.mul_lt_mul_of_pos_left h4 (by positivity)
    omega

theorem f64Round_spec (n d : Nat) (hn : 0 < n) (hd : 0 < d) :
    ∃ s t : Nat, f64Round ⟨n, d⟩ = ⟨rneDiv (n * 2 ^ s) (d * 2 ^ t) * 2 ^ t, 2 ^ s⟩ ∧
      2 ^ 52 * (d * 2 ^ t) ≤ n * 2 ^ s ∧ n * 2 ^ s < 2 ^ 53 * (d * 2 ^ t) := by
  obtain ⟨hnl, hnu⟩ := ilog2_spec n hn
  obtain ⟨hdl, hdu⟩ := ilog2_spec d hd
  have key : 2 ^ (ilog2 n) * 2 ^ ((52 + ilog2 d) - ilog2 n) =
      2 ^ 52 * 2 ^ (ilog2 d) * 2 ^ (ilog2 n - (52 + ilog2 d)) := by
    rw [← pow_add, ← pow_add, ← pow_add]
    congr 1
    omega
  rw [pow_succ] at hnu hdu
  obtain ⟨hup, hlo⟩ := f64Round_scale n d _ _ _ _ hnl hnu hdl hdu key
  by_cases hc : n * 2 ^ ((52 + ilog2 d) - ilog2 n) <
      d * 2 ^ (ilog2 n - (52 + ilog2 d)) * 2 ^ 52
  · have e : n * 2 ^ ((52 + ilog2 d) - ilog2 n + 1) =
        2 * (n * 2 ^ ((52 + ilog2 d) - ilog2 n)) := by rw [pow_succ]; ring
    refine ⟨(52 + ilog2 d) - ilog2 n + 1, ilog2 n - (52 + ilog2 d), ?_, ?_, ?_⟩
    · simp only [f64Round, e]
      rw [if_neg (by omega), if_neg (by omega), if_pos hc]
    · rw [e]; omega
    · rw [e]; omega
  · refine ⟨(52 + ilog2 d) - ilog2 n, ilog2 n - (52 + ilog2 d), ?_, ?_, hup⟩
    · simp only [f64Round]
      rw [if_neg (by omega), if_neg (by omega), if_neg hc]
    · omega

theorem f64Round_zero (d : Nat) (hd : 0 < d) : f64Round ⟨0, d⟩ = ⟨0, 1⟩ := by
  have h : ¬ d = 0 := by omega
  simp [f64Round, h]

/-- Rounding keeps a finite value finite and moves it by at most a factor `2^-53`. -/
theorem f64Round_rel (x : F64) (hd : 0 < x.den) :
    0 < (f64Round x).den ∧ (0 < x.num → 0 < (f64Round x).num) ∧
      x.toRat * (1 - 1 / 2 ^ 53) ≤ (f64Round x).toRat ∧
      (f64Round x).toRat ≤ x.toRat * (1 + 1 / 2 ^ 53) := by
  obtain ⟨n, d⟩ := x
  simp only at hd
  rcases Nat.eq_zero_or_pos n with h0 | hn
  · subst h0
    rw [f64Round_zero d hd]
    simp [F64.toRat]
  · obtain ⟨s, t, he, hlo, hup⟩ := f64Round_spec n d hn hd
    obtain ⟨hn1, hn2⟩ := rneDiv_near (n * 2 ^ s) (d * 2 ^ t) (by positivity)
    have hM : 2 ^ 52 ≤ rneDiv (n * 2 ^ s) (d * 2 ^ t) :=
      rneDiv_ge _ _ _ (by positivity) hlo
    rw [he]
    simp only [F64.toRat]
    refine ⟨by positivity, fun _ => ?_, ?_, ?_⟩
    · have : 0 < rneDiv (n * 2 ^ s) (d * 2 ^ t) := lt_of_lt_of_le (by positivity) hM
      positivity
    · generalize rneDiv (n * 2 ^ s) (d * 2 ^ t) = M at *
      have hdq : (0 : ℚ) < d := by exact_mod_cast hd
      have hsq : (0 : ℚ) < 2 ^ s := by positivity
      have htq : (0 : ℚ) < 2 ^ t := by positivity
      have q1 : (2 : ℚ) * (n * 2 ^ s) ≤ 2 * (M * (d * 2 ^ t)) + d * 2 ^ t := by
        exact_mod_cast hn2
      have q2 : (2 : ℚ) ^ 52 * (d * 2 ^ t) ≤ n * 2 ^ s := by exact_mod_cast hlo
      push_cast
      rw [div_mul_eq_mul_div, div_le_div_iff₀ hdq hsq]
      nlinarith
    · generalize rneDiv (n * 2 ^ s) (d * 2 ^ t) = M at *
      have hdq : (0 : ℚ) < d := by exact_mod_cast hd
      have hsq : (0 : ℚ) < 2 ^ s := by positivity
      have htq : (0 : ℚ) < 2 ^ t := by positivity
      have q1 : (2 : ℚ) * (M * (d * 2 ^ t)) ≤ 2 * (n * 2 ^ s) + d * 2 ^ t := by
        exact_mod_cast hn1
      have q2 : (2 : ℚ) ^ 52 * (d * 2 ^ t) ≤ n * 2 ^ s := by exact_mod_cast hlo
      push_cast
      rw [div_mul_eq_mul_div, div_le_div_iff₀ hsq hdq]
      nlinarith

theorem f64Round_le_nat (x : F64) (hd : 0 < x.den) (k : Nat) (hk : k < 2 ^ 53)
    (h : x.num ≤ k * x.den) : (f64Round x).num ≤ k * (f64Round x).den := by
  obtain ⟨n, d⟩ := x
  simp only at hd h
  rcases Nat.eq_zero_or_pos n with h0 | hn
  · subst h0
    rw [f64Round_zero d hd]
    simp
  · obtain ⟨s, t, he, hlo, hup⟩ := f64Round_spec n d hn hd
    rw [he]
    simp only
    have hts : t ≤ s := by
      by_contra hc
      have h1 : 2 ^ (s + 1) ≤ 2 ^ t := Nat.pow_le_pow_right (by norm_num) (by omega)
      have h2 : n * 2 ^ s ≤ k * d * 2 ^ s := Nat.mul_le_mul_right _ h
      have h3 : 2 ^ 52 * (d * 2 ^ (s + 1)) ≤ 2 ^ 52 * (d * 2 ^ t) :=
        Nat.mul_le_mul_left _ (Nat.mul_le_mul_left _ h1)
      have h4 : k * (d * 2 ^ s) < 2 ^ 53 * (d * 2 ^ s) :=
        Nat.mul_lt_mul_of_pos_right hk (by positivity)
      have e1 : 2 ^ 52 * (d * 2 ^ (s + 1)) = 2 ^ 53 * (d * 2 ^ s) := by rw [pow_succ]; ring
      have e2 : k * d * 2 ^ s = k * (d * 2 ^ s) := by ring
      omega
    obtain ⟨j, rfl⟩ := Nat.exists_eq_add_of_le hts
    have h5 : rneDiv (n * 2 ^ (t + j)) (d * 2 ^ t) ≤ k * 2 ^ j := by
      apply rneDiv_le _ _ _ (by positivity)
      have : n * 2 ^ (t + j) ≤ k * d * 2 ^ (t + j) := Nat.mul_le_mul_right _ h
      calc n * 2 ^ (t + j) ≤ k * d * 2 ^ (t + j) := this
        _ = k * 2 ^ j * (d * 2 ^ t) := by rw [pow_add]; ring
    calc rneDiv (n * 2 ^ (t + j)) (d * 2 ^ t) * 2 ^ t ≤ k * 2 ^ j * 2 ^ t :=
          Nat.mul_le_mul_right _ h5
      _ = k * 2 ^ (t + j) := by rw [pow_add]; ring

theorem nat_le_f64Round (x : F64) (hd : 0 < x.den) (k : Nat) (hk : k < 2 ^ 53)
    (h : k * x.den ≤ x.num) : k * (f64Round x).den ≤ (f64Round x).num := by
  obtain ⟨n, d⟩ := x
  simp only at hd h
  rcases Nat.eq_zero_or_pos n with h0 | hn
  · subst h0
    rw [f64Round_zero d hd]
    have : k = 0 := by
      rcases Nat.eq_zero_or_pos k with h1 | h1
      · exact h1
      · have := Nat.mul_pos h1 hd; omega
    simp [this]
  · obtain ⟨s, t, he, hlo, hup⟩ := f64Round_spec n d hn hd
    rw [he]
    simp only
    have hM : 2 ^ 52 ≤ rneDiv (n * 2 ^ s) (d * 2 ^ t) :=
      rneDiv_ge _ _ _ (by positivity) hlo
    rcases Nat.lt_or_ge s t with hst | hts
    · have h1 : 2 ^ (s + 1) ≤ 2 ^ t := Nat.pow_le_pow_right (by norm_num) (by omega)
      calc k * 2 ^ s ≤ 2 ^ 53 * 2 ^ s := Nat.mul_le_mul_right _ (le_of_lt hk)
        _ = 2 ^ 52 * 2 ^ (s + 1) := by rw [pow_succ]; ring
        _ ≤ 2 ^ 52 * 2 ^ t := Nat.mul_le_mul_left _ h1
        _ ≤ rneDiv (n * 2 ^ s) (d * 2 ^ t) * 2 ^ t := Nat.mul_le_mul_right _ hM
    · obtain ⟨j, rfl⟩ := Nat.exists_eq_add_of_le hts
      have h5 : k * 2 ^ j ≤ rneDiv (n * 2 ^ (t + j)) (d * 2 ^ t) := by
        apply rneDiv_ge _ _ _ (by positivity)
        calc k * 2 ^ j * (d * 2 ^ t) = k * d * 2 ^ (t + j) := by rw [pow_add]; ring
          _ ≤ n * 2 ^ (t + j) := Nat.mul_le_mul_right _ h
      calc k * 2 ^ (t + j) = k * 2 ^ j * 2 ^ t := by rw [pow_add]; ring
        _ ≤ rneDiv (n * 2 ^ (t + j)) (d * 2 ^ t) * 2 ^ t := Nat.mul_le_mul_right _ h5

/-- Integers below `2^53` convert to float64 exactly. -/
theorem f64OfInt_exact (k : Nat) (hk : k < 2 ^ 53) :
    0 < (f64OfInt k).den ∧ (f64OfInt k).num = k * (f64OfInt k).den := by
  have h1 := f64Round_le_nat ⟨k, 1⟩ (by simp) k hk (by simp)
  have h2 := nat_le_f64Round ⟨k, 1⟩ (by simp) k hk (by simp)
  have h3 := (f64Round_rel ⟨k, 1⟩ (by simp)).1
  exact ⟨h3, le_antisymm h1 h2⟩

theorem chain_div (m x R Z Y X : ℚ) (hx : 0 < x) (hR : 0 < R) (hm : 0 ≤ m)
    (hR1 : x * (1 - 1 / 2 ^ 53) ≤ R) (hR2 : R ≤ x * (1 + 1 / 2 ^ 53))
    (hZ : Z = m / R) (hX : X = m / x)
    (hY1 : Z * (1 - 1 / 2 ^ 53) ≤ Y) (hY2 : Y ≤ Z * (1 + 1 / 2 ^ 53)) :
    X * (1 - 4 / 2 ^ 53) ≤ Y ∧ Y ≤ X * (1 + 4 / 2 ^ 53) := by
  have hZ0 : 0 ≤ Z := by rw [hZ]; positivity
  have hX0 : 0 ≤ X := by rw [hX]; positivity
  have e1 : Z * R = m := by rw [hZ]; field_simp
  have e2 : X * x = m := by rw [hX]; field_simp
  have a1 : X ≤ Z * (1 + 1 / 2 ^ 53) := by
    have : X * x ≤ Z * (1 + 1 / 2 ^ 53) * x := by
      have := mul_le_mul_of_nonneg_left hR2 hZ0
      nlinarith
    exact le_of_mul_le_mul_right this hx
  have a2 : Z * (1 - 1 / 2 ^ 53) ≤ X := by
    have : Z * (1 - 1 / 2 ^ 53) * x ≤ X * x := by
      have := mul_le_mul_of_nonneg_left hR1 hZ0
      nlinarith
    exact le_of_mul_le_mul_right this hx
  norm_num at a1 a2 hY1 hY2 ⊢
  constructor <;> linarith

theorem chain_mul (m x R Z Y X : ℚ) (hm : 0 ≤ m) (hx : 0 ≤ x)
    (hR1 : x * (1 - 1 / 2 ^ 53) ≤ R) (hR2 : R ≤ x * (1 + 1 / 2 ^ 53))
    (hZ : Z = m * R) (hX : X = m * x)
    (hY1 : Z * (1 - 1 / 2 ^ 53) ≤ Y) (hY2 : Y ≤ Z * (1 + 1 / 2 ^ 53)) :
    X * (1 - 4 / 2 ^ 53) ≤ Y ∧ Y ≤ X * (1 + 4 / 2 ^ 53) := by
  have hX0 : 0 ≤ X := by rw [hX]; positivity
  have a1 : X * (1 - 1 / 2 ^ 53) ≤ Z := by
    have := mul_le_mul_of_nonneg_left hR1 hm
    rw [hZ, hX]; linarith
  have a2 : Z ≤ X * (1 + 1 / 2 ^ 53) := by
    have := mul_le_mul_of_nonneg_left hR2 hm
    rw [hZ, hX]; linarith
  norm_num at a1 a2 hY1 hY2 ⊢
  constructor <;> linarith

theorem floor_near (p q : Nat) (hq : 0 < q) (hp : 4 * p < 2 ^ 53) (Y : ℚ)
    (hY1 : (p : ℚ) / q * (1 - 4 / 2 ^ 53) ≤ Y) (hY2 : Y ≤ (p : ℚ) / q * (1 + 4 / 2 ^ 53)) :
    ⌊Y⌋₊ ≤ p / q ∧ p / q ≤ ⌊Y⌋₊ + 1 := by
  have hqq : (0 : ℚ) < q := by exact_mod_cast hq
  have hpq : (4 : ℚ) * p < 2 ^ 53 := by exact_mod_cast hp
  have hp0 : (0 : ℚ) ≤ p := by positivity
  have hmod := Nat.div_add_mod p q
  have hr : p % q < q := Nat.mod_lt p hq
  have hdiv : (p : ℚ) = q * ((p / q : ℕ) : ℚ) + ((p % q : ℕ) : ℚ) := by exact_mod_cast hmod.symm
  have hrq : ((p % q : ℕ) : ℚ) + 1 ≤ q := by exact_mod_cast hr
  have hr0 : (0 : ℚ) ≤ ((p % q : ℕ) : ℚ) := by positivity
  have hYq1 : (p : ℚ) * (1 - 4 / 2 ^ 53) ≤ Y * q := by
    have := mul_le_mul_of_nonneg_right hY1 (le_of_lt hqq)
    rwa [mul_right_comm, div_mul_cancel₀ _ (ne_of_gt hqq)] at this
  have hYq2 : Y * q ≤ (p : ℚ) * (1 + 4 / 2 ^ 53) := by
    have := mul_le_mul_of_nonneg_right hY2 (le_of_lt hqq)
    rwa [mul_right_comm, div_mul_cancel₀ _ (ne_of_gt hqq)] at this
  have hY0 : 0 ≤ Y := by
    have : (0 : ℚ) ≤ (p : ℚ) / q * (1 - 4 / 2 ^ 53) := by
      apply mul_nonneg (by positivity); norm_num
    linarith
  constructor
  · have hlt : Y < ((p / q + 1 : ℕ) : ℚ) := by
      have : Y * q < ((p / q + 1 : ℕ) : ℚ) * q := by
        push_cast
        norm_num at hYq2 hpq ⊢
        nlinarith
      exact lt_of_mul_lt_mul_right this (le_of_lt hqq)
    have := (Nat.floor_lt hY0).2 hlt
    omega
  · rcases Nat.eq_zero_or_pos (p / q) with h0 | hpos
    · omega
    · have hle : ((p / q - 1 : ℕ) : ℚ) ≤ Y := by
        have hc : ((p / q - 1 : ℕ) : ℚ) = ((p / q : ℕ) : ℚ) - 1 := by
          rw [Nat.cast_sub hpos]; simp
        have : ((p / q - 1 : ℕ) : ℚ) * q ≤ Y * q := by
          rw [hc]
          norm_num at hYq1 hpq ⊢
          nlinarith
        exact le_of_mul_le_mul_right this hqq
      have := Nat.le_floor hle
      omega

theorem f64OfInt_toRat (k : Nat) (hk : k < 2 ^ 53) : (f64OfInt k).toRat = k := by
  obtain ⟨hd, he⟩ := f64OfInt_exact k hk
  have : ((f64OfInt k).den : ℚ) ≠ 0 := by exact_mod_cast (ne_of_gt hd)
  simp only [F64.toRat, he]
  push_cast
  field_simp

theorem f64ToInt_eq_floor (x : F64) : f64ToInt x = ⌊x.toRat⌋₊ :=
  (Nat.floor_div_eq_div (α := ℚ) x.num x.den).symm

theorem ratio_rel (w h : Nat) (hw : 0 < w) (hh : 0 < h) (hw2 : w < 2 ^ 53) (hh2 : h < 2 ^ 53) :
    0 < (f64Div (f64OfInt w) (f64OfInt h)).den ∧ 0 < (f64Div (f64OfInt w) (f64OfInt h)).num ∧
    ((w : ℚ) / h) * (1 - 1 / 2 ^ 53) ≤ (f64Div (f64OfInt w) (f64OfInt h)).toRat ∧
    (f64Div (f64OfInt w) (f64OfInt h)).toRat ≤ ((w : ℚ) / h) * (1 + 1 / 2 ^ 53) := by
  obtain ⟨hWd, hWn⟩ := f64OfInt_exact w hw2
  obtain ⟨hHd, hHn⟩ := f64OfInt_exact h hh2
  have hWn0 : 0 < (f64OfInt w).num := by rw [hWn]; positivity
  have hHn0 : 0 < (f64OfInt h).num := by rw [hHn]; positivity
  have hpre : (⟨(f64OfInt w).num * (f64OfInt h).den, (f64OfInt w).den * (f64OfInt h).num⟩ : F64).toRat
      = (w : ℚ) / h := by
    have e1 := f64OfInt_toRat w hw2
    have e2 := f64OfInt_toRat h hh2
    simp only [F64.toRat] at e1 e2 ⊢
    rw [← e1, ← e2]
    push_cast
    have a1 : ((f64OfInt w).den : ℚ) ≠ 0 := by exact_mod_cast (ne_of_gt hWd)
    have a2 : ((f64OfInt h).den : ℚ) ≠ 0 := by exact_mod_cast (ne_of_gt hHd)
    have a3 : ((f64OfInt h).num : ℚ) ≠ 0 := by exact_mod_cast (ne_of_gt hHn0)
    field_simp
  obtain ⟨r1, r2, r3, r4⟩ := f64Round_rel
    ⟨(f64OfInt w).num * (f64OfInt h).den, (f64OfInt w).den * (f64OfInt h).num⟩
    (Nat.mul_pos hWd hHn0)
  rw [hpre] at r3 r4
  exact ⟨r1, r2 (Nat.mul_pos hWn0 hHd), r3, r4⟩

theorem divChain_rel (m w h : Nat) (hw : 0 < w) (hh : 0 < h) (hm2 : m < 2 ^ 53)
    (hw2 : w < 2 ^ 53) (hh2 : h < 2 ^ 53) :
    ((m * h : ℕ) : ℚ) / w * (1 - 4 / 2 ^ 53) ≤
      (f64Div (f64OfInt m) (f64Div (f64OfInt w) (f64OfInt h))).toRat ∧
    (f64Div (f64OfInt m) (f64Div (f64OfInt w) (f64OfInt h))).toRat ≤
      ((m * h : ℕ) : ℚ) / w * (1 + 4 / 2 ^ 53) := by
  obtain ⟨hRd, hRn, hR1, hR2⟩ := ratio_rel w h hw hh hw2 hh2
  obtain ⟨hMd, hMn⟩ := f64OfInt_exact m hm2
  have eM := f64OfInt_toRat m hm2
  generalize f64Div (f64OfInt w) (f64OfInt h) = r at *
  have hwq : (0 : ℚ) < w := by exact_mod_cast hw
  have hhq : (0 : ℚ) < h := by exact_mod_cast hh
  have hRq : (0 : ℚ) < r.toRat := by
    simp only [F64.toRat]
    have a1 : (0 : ℚ) < r.num := by exact_mod_cast hRn
    have a2 : (0 : ℚ) < r.den := by exact_mod_cast hRd
    positivity
  obtain ⟨-, -, y1, y2⟩ := f64Round_rel ⟨(f64OfInt m).num * r.den, (f64OfInt m).den * r.num⟩
    (Nat.mul_pos hMd hRn)
  have hpre : (⟨(f64OfInt m).num * r.den, (f64OfInt m).den * r.num⟩ : F64).toRat
      = (m : ℚ) / r.toRat := by
    simp only [F64.toRat] at eM ⊢
    rw [← eM]
    push_cast
    have a1 : ((f64OfInt m).den : ℚ) ≠ 0 := by exact_mod_cast (ne_of_gt hMd)
    have a2 : (r.den : ℚ) ≠ 0 := by exact_mod_cast (ne_of_gt hRd)
    have a3 : (r.num : ℚ) ≠ 0 := by exact_mod_cast (ne_of_gt hRn)
    field_simp
  have hX : ((m * h : ℕ) : ℚ) / w = (m : ℚ) / ((w : ℚ) / h) := by
    push_cast; field_simp
  exact chain_div m ((w : ℚ) / h) r.toRat _ _ _ (by positivity) hRq (by positivity)
    hR1 hR2 hpre hX y1 y2

theorem mulChain_rel (m w h : Nat) (hw : 0 < w) (hh : 0 < h) (hm2 : m < 2 ^ 53)
    (hw2 : w < 2 ^ 53) (hh2 : h < 2 ^ 53) :
    ((m * w : ℕ) : ℚ) / h * (1 - 4 / 2 ^ 53) ≤
      (f64Mul (f64OfInt m) (f64Div (f64OfInt w) (f64OfInt h))).toRat ∧
    (f64Mul (f64OfInt m) (f64Div (f64OfInt w) (f64OfInt h))).toRat ≤
      ((m * w : ℕ) : ℚ) / h * (1 + 4 / 2 ^ 53) := by
  obtain ⟨hRd, hRn, hR1, hR2⟩ := ratio_rel w h hw hh hw2 hh2
  obtain ⟨hMd, hMn⟩ := f64OfInt_exact m hm2
  have eM := f64OfInt_toRat m hm2
  generalize f64Div (f64OfInt w) (f64OfInt h) = r at *
  have hwq : (0 : ℚ) < w := by exact_mod_cast hw
  have hhq : (0 : ℚ) < h := by exact_mod_cast hh
  obtain ⟨-, -, y1, y2⟩ := f64Round_rel ⟨(f64OfInt m).num * r.num, (f64OfInt m).den * r.den⟩
    (Nat.mul_pos hMd hRd)
  have hpre : (⟨(f64OfInt m).num * r.num, (f64OfInt m).den * r.den⟩ : F64).toRat
      = (m : ℚ) * r.toRat := by
    simp only [F64.toRat] at eM ⊢
    rw [← eM]
    push_cast
    have a1 : ((f64OfInt m).den : ℚ) ≠ 0 := by exact_mod_cast (ne_of_gt hMd)
    have a2 : (r.den : ℚ) ≠ 0 := by exact_mod_cast (ne_of_gt hRd)
    field_simp
  have hX : ((m * w : ℕ) : ℚ) / h = (m : ℚ) * ((w : ℚ) / h) := by
    push_cast; field_simp
  exact chain_mul m ((w : ℚ) / h) r.toRat _ _ _ (by positivity) (by positivity)
    hR1 hR2 hpre hX y1 y2


theorem rneDiv_tie (n d : Nat) (hd : 0 < d) :
    (2 * (rneDiv n d * d) = 2 * n + d → rneDiv n d % 2 = 0) ∧
    (2 * n = 2 * (rneDiv n d * d) + d → rneDiv n d % 2 = 0) ∧
    2 * (rneDiv n d * d) ≤ 2 * n + d ∧ 2 * n ≤ 2 * (rneDiv n d * d) + d := by
  have hmod := Nat.div_add_mod n d
  have hr : n % d < d := Nat.mod_lt n hd
  have hc : d * (n / d) = n / d * d := Nat.mul_comm _ _
  unfold rneDiv
  simp only
  split_ifs <;> (try rw [Nat.add_mul]) <;> refine ⟨?_, ?_, ?_, ?_⟩ <;> omega

theorem rneDiv_unique (n d m : Nat) (hd : 0 < d)
    (h1 : 2 * (m * d) ≤ 2 * n + d) (h2 : 2 * n ≤ 2 * (m * d) + d)
    (h3 : 2 * (m * d) = 2 * n + d → m % 2 = 0) (h4 : 2 * n = 2 * (m * d) + d → m % 2 = 0) :
    m = rneDiv n d := by
  obtain ⟨t1, t2, t3, t4⟩ := rneDiv_tie n d hd
  generalize rneDiv n d = r at *
  rcases Nat.lt_trichotomy m r with hlt | heq | hgt
  · have hle : (m + 1) * d ≤ r * d := Nat.mul_le_mul_right d hlt
    rw [Nat.add_mul] at hle
    have e1 : 2 * (r * d) = 2 * n + d := by omega
    have e2 : 2 * n = 2 * (m * d) + d := by omega
    have hr := t1 e1
    have hm := h4 e2
    have : r * d = m * d + d := by omega
    have : r * d = (m + 1) * d := by rw [Nat.add_mul]; omega
    have : r = m + 1 := Nat.eq_of_mul_eq_mul_right hd this
    omega
  · exact heq
  · have hle : (r + 1) * d ≤ m * d := Nat.mul_le_mul_right d hgt
    rw [Nat.add_mul] at hle
    have e1 : 2 * (m * d) = 2 * n + d := by omega
    have e2 : 2 * n = 2 * (r * d) + d := by omega
    have hm := h3 e1
    have hr := t2 e2
    have : m * d = (r + 1) * d := by rw [Nat.add_mul]; omega
    have : m = r + 1 := Nat.eq_of_mul_eq_mul_right hd this
    omega

theorem rneDiv_congr (n d n' d' : Nat) (hd : 0 < d) (hd' : 0 < d') (h : n * d' = n' * d) :
    rneDiv n d = rneDiv n' d' := by
  obtain ⟨t1, t2, t3, t4⟩ := rneDiv_tie n d hd
  generalize rneDiv n d = m at *
  have c1 : 2 * (m * d') * d = 2 * (m * d) * d' := by ring
  have c2 : (2 * n' + d') * d = (2 * n + d) * d' := by
    have : 2 * n' * d = 2 * n * d' := by rw [Nat.mul_assoc, ← h]; ring
    rw [Nat.add_mul, Nat.add_mul, this]; ring
  have c3 : (2 * (m * d') + d') * d = (2 * (m * d) + d) * d' := by ring
  have c4 : (2 * n') * d = (2 * n) * d' := by rw [Nat.mul_assoc, ← h]; ring
  apply rneDiv_unique n' d' m hd'
  · apply Nat.le_of_mul_le_mul_right _ hd
    rw [c1, c2]
    exact Nat.mul_le_mul_right _ t3
  · apply Nat.le_of_mul_le_mul_right _ hd
    rw [c4, c3]
    exact Nat.mul_le_mul_right _ t4
  · intro e
    apply t1
    have : 2 * (m * d) * d' = (2 * n + d) * d' := by rw [← c1, ← c2, e]
    exact Nat.eq_of_mul_eq_mul_right hd' this
  · intro e
    apply t2
    have : (2 * n) * d' = (2 * (m * d) + d) * d' := by rw [← c4, ← c3, e]
    exact Nat.eq_of_mul_eq_mul_right hd' this

theorem f64Round_scale_unique (n d n' d' s t s' t' : Nat) (hd : 0 < d)
    (h : n * d' = n' * d)
    (hlo : 2 ^ 52 * (d * 2 ^ t) ≤ n * 2 ^ s) (hup' : n' * 2 ^ s' < 2 ^ 53 * (d' * 2 ^ t')) :
    t + s' ≤ s + t' := by
  by_contra hc
  have hlt : s + t' + 1 ≤ t + s' := by omega
  have hpow : 2 ^ (s + t' + 1) ≤ 2 ^ (t + s') := Nat.pow_le_pow_right (by norm_num) hlt
  have a1 : 2 ^ 52 * (d * 2 ^ t) * (d' * 2 ^ s') ≤ n * 2 ^ s * (d' * 2 ^ s') :=
    Nat.mul_le_mul_right _ hlo
  have a2 : n' * 2 ^ s' * (d * 2 ^ s) < 2 ^ 53 * (d' * 2 ^ t') * (d * 2 ^ s) :=
    Nat.mul_lt_mul_of_pos_right hup' (by positivity)
  have e1 : n * 2 ^ s * (d' * 2 ^ s') = n' * 2 ^ s' * (d * 2 ^ s) := by
    calc n * 2 ^ s * (d' * 2 ^ s') = (n * d') * (2 ^ s * 2 ^ s') := by ring
      _ = (n' * d) * (2 ^ s * 2 ^ s') := by rw [h]
      _ = n' * 2 ^ s' * (d * 2 ^ s) := by ring
  have e2 : 2 ^ 52 * (d * 2 ^ t) * (d' * 2 ^ s') = 2 ^ 52 * (d * d') * 2 ^ (t + s') := by
    rw [pow_add]; ring
  have e3 : 2 ^ 53 * (d' * 2 ^ t') * (d * 2 ^ s) = 2 ^ 52 * (d * d') * 2 ^ (s + t' + 1) := by
    rw [pow_add, pow_add]; ring
  have a3 : 2 ^ 52 * (d * d') * 2 ^ (t + s') < 2 ^ 52 * (d * d') * 2 ^ (s + t' + 1) := by
    rw [← e2, ← e3]
    exact lt_of_le_of_lt a1 (e1 ▸ a2)
  have a4 : 2 ^ 52 * (d * d') * 2 ^ (s + t' + 1) ≤ 2 ^ 52 * (d * d') * 2 ^ (t + s') :=
    Nat.mul_le_mul_left _ hpow
  omega

/-- Rounding depends only on the value of the quotient, not on the fraction that
presents it. -/
theorem f64Round_congr (x y : F64) (hx : 0 < x.den) (hy : 0 < y.den)
    (h : x.num * y.den = y.num * x.den) :
    (f64Round x).num * (f64Round y).den = (f64Round y).num * (f64Round x).den := by
  obtain ⟨n, d⟩ := x
  obtain ⟨n', d'⟩ := y
  simp only at hx hy h
  rcases Nat.eq_zero_or_pos n with h0 | hn
  · subst h0
    have hn' : n' = 0 := by
      rcases Nat.eq_zero_or_pos n' with h1 | h1
      · exact h1
      · have := Nat.mul_pos h1 hx
        omega
    subst hn'
    rw [f64Round_zero d hx, f64Round_zero d' hy]
  · have hn' : 0 < n' := by
      rcases Nat.eq_zero_or_pos n' with h1 | h1
      · subst h1
        have := Nat.mul_pos hn hy
        omega
      · exact h1
    obtain ⟨s, t, he, hlo, hup⟩ := f64Round_spec n d hn hx
    obtain ⟨s', t', he', hlo', hup'⟩ := f64Round_spec n' d' hn' hy
    have k1 := f64Round_scale_unique n d n' d' s t s' t' hx h hlo hup'
    have k2 := f64Round_scale_unique n' d' n d s' t' s t hy h.symm hlo' hup
    have hst : s + t' = s' + t := by omega
    have hpw : 2 ^ s * 2 ^ t' = 2 ^ s' * 2 ^ t := by rw [← pow_add, ← pow_add, hst]
    have hM : rneDiv (n * 2 ^ s) (d * 2 ^ t) = rneDiv (n' * 2 ^ s') (d' * 2 ^ t') := by
      apply rneDiv_congr _ _ _ _ (by positivity) (by positivity)
      calc n * 2 ^ s * (d' * 2 ^ t') = (n * d') * (2 ^ s * 2 ^ t') := by ring
        _ = (n' * d) * (2 ^ s' * 2 ^ t) := by rw [h, hpw]
        _ = n' * 2 ^ s' * (d * 2 ^ t) := by ring
    rw [he, he', hM]
    simp only
    calc rneDiv (n' * 2 ^ s') (d' * 2 ^ t') * 2 ^ t * 2 ^ s'
        = rneDiv (n' * 2 ^ s') (d' * 2 ^ t') * (2 ^ s' * 2 ^ t) := by ring
      _ = rneDiv (n' * 2 ^ s') (d' * 2 ^ t') * (2 ^ s * 2 ^ t') := by rw [hpw]
      _ = rneDiv (n' * 2 ^ s') (d' * 2 ^ t') * 2 ^ t' * 2 ^ s := by ring

theorem f64ToInt_congr (x y : F64) (hx : 0 < x.den) (hy : 0 < y.den)
    (h : x.num * y.den = y.num * x.den) : f64ToInt x = f64ToInt y := by
  unfold f64ToInt
  have e1 : x.num / x.den = (x.num * y.den) / (x.den * y.den) :=
    (Nat.mul_div_mul_right _ _ hy).symm
  have e2 : y.num / y.den = (y.num * x.den) / (x.den * y.den) := by
    rw [Nat.mul_comm x.den y.den]
    exact (Nat.mul_div_mul_right _ _ hx).symm
  rw [e1, e2, h]

/-- When the exact quotient is not an integer, a value within the float64 error of it has
the same floor. -/
theorem floor_exact (p q : Nat) (hq : 0 < q) (hp : 4 * p < 2 ^ 53) (hrem : p % q ≠ 0) (Y : ℚ)
    (hY1 : (p : ℚ) / q * (1 - 4 / 2 ^ 53) ≤ Y) : p / q ≤ ⌊Y⌋₊ := by
  have hqq : (0 : ℚ) < q := by exact_mod_cast hq
  have hpq : (4 : ℚ) * p < 2 ^ 53 := by exact_mod_cast hp
  have hmod := Nat.div_add_mod p q
  have hge : q * (p / q) + 1 ≤ p := by omega
  have hgeq : (q : ℚ) * ((p / q : ℕ) : ℚ) + 1 ≤ (p : ℚ) := by exact_mod_cast hge
  have hYq1 : (p : ℚ) * (1 - 4 / 2 ^ 53) ≤ Y * q := by
    have := mul_le_mul_of_nonneg_right hY1 (le_of_lt hqq)
    rwa [mul_right_comm, div_mul_cancel₀ _ (ne_of_gt hqq)] at this
  apply Nat.le_floor
  have : ((p / q : ℕ) : ℚ) * q ≤ Y * q := by
    norm_num at hYq1 hpq ⊢
    nlinarith
  exact le_of_mul_le_mul_right this hqq

/-! ## ResizeImage: dimensions -/

theorem specFloor_div (m w h : Nat) : ⌊(m : ℚ) / ((w : ℚ) / (h : ℚ))⌋₊ = m * h / w := by
  have e : (m : ℚ) / ((w : ℚ) / (h : ℚ)) = ((m * h : ℕ) : ℚ) / (w : ℚ) := by
    push_cast
    rw [div_div_eq_mul_div]
  rw [e, Nat.floor_div_eq_div]

theorem specFloor_mul (m w h : Nat) : ⌊(m : ℚ) * ((w : ℚ) / (h : ℚ))⌋₊ = m * w / h := by
  have e : (m : ℚ) * ((w : ℚ) / (h : ℚ)) = ((m * w : ℕ) : ℚ) / (h : ℚ) := by
    push_cast
    rw [mul_div_assoc]
  rw [e, Nat.floor_div_eq_div]

theorem specDimensions_eq (w h maxW maxH : Nat) :
    specDimensions w h maxW maxH =
      if w > maxW ∨ h > maxH then
        if w > h then (maxW, maxW * h / w) else (maxH * w / h, maxH)
      else (w, h) := by
  unfold specDimensions
  rw [specFloor_div, specFloor_mul]

theorem newDimensions_landscape (w h maxW maxH : Nat) (hw : 0 < w) (hh : 0 < h)
    (hw2 : w < 2 ^ 31) (hh2 : h < 2 ^ 31) (hm : maxW < 2 ^ 20)
    (hex : w > maxW ∨ h > maxH) (hwh : w > h) :
    (newDimensions w h maxW maxH).1 = maxW ∧
    (newDimensions w h maxW maxH).2 ≤ maxW * h / w ∧
    maxW * h / w ≤ (newDimensions w h maxW maxH).2 + 1 := by
  have hb : (2 : ℕ) ^ 31 < 2 ^ 53 := by norm_num
  have hb2 : (2 : ℕ) ^ 20 < 2 ^ 53 := by norm_num
  obtain ⟨y1, y2⟩ := divChain_rel maxW w h hw hh (by omega) (by omega) (by omega)
  have hp : 4 * (maxW * h) < 2 ^ 53 := by
    have : maxW * h < 2 ^ 20 * 2 ^ 31 := Nat.mul_lt_mul'' hm hh2
    norm_num at this ⊢
    omega
  have := floor_near (maxW * h) w hw hp _ y1 y2
  rw [← f64ToInt_eq_floor] at this
  simp only [newDimensions, if_pos hex, if_pos hwh]
  exact ⟨trivial, this.1, this.2⟩

theorem newDimensions_portrait (w h maxW maxH : Nat) (hw : 0 < w) (hh : 0 < h)
    (hw2 : w < 2 ^ 31) (hh2 : h < 2 ^ 31) (hm : maxH < 2 ^ 20)
    (hex : w > maxW ∨ h > maxH) (hwh : ¬ w > h) :
    (newDimensions w h maxW maxH).2 = maxH ∧
    (newDimensions w h maxW maxH).1 ≤ maxH * w / h ∧
    maxH * w / h ≤ (newDimensions w h maxW maxH).1 + 1 := by
  have hb : (2 : ℕ) ^ 31 < 2 ^ 53 := by norm_num
  have hb2 : (2 : ℕ) ^ 20 < 2 ^ 53 := by norm_num
  obtain ⟨y1, y2⟩ := mulChain_rel maxH w h hw hh (by omega) (by omega) (by omega)
  have hp : 4 * (maxH * w) < 2 ^ 53 := by
    have : maxH * w < 2 ^ 20 * 2 ^ 31 := Nat.mul_lt_mul'' hm hw2
    norm_num at this ⊢
    omega
  have := floor_near (maxH * w) h hh hp _ y1 y2
  rw [← f64ToInt_eq_floor] at this
  simp only [newDimensions, if_pos hex, if_neg hwh]
  exact ⟨trivial, this.1, this.2⟩

theorem newDimensions_unchanged (w h maxW maxH : Nat) (hex : ¬ (w > maxW ∨ h > maxH)) :
    newDimensions w h maxW maxH = (w, h) := by
  simp only [newDimensions, if_neg hex]

/-- The second dimension of a landscape resize depends only on the aspect ratio. -/
theorem newDimensions_aspect (w h w' h' maxW maxH : Nat) (hw : 0 < w) (hh : 0 < h)
    (hw' : 0 < w') (hh' : 0 < h') (hw2 : w < 2 ^ 53) (hh2 : h < 2 ^ 53)
    (hw2' : w' < 2 ^ 53) (hh2' : h' < 2 ^ 53) (hm : maxW < 2 ^ 53)
    (hasp : w * h' = w' * h)
    (hex : w > maxW ∨ h > maxH) (hex' : w' > maxW ∨ h' > maxH) (hwh : w > h) :
    (newDimensions w h maxW maxH).2 = (newDimensions w' h' maxW maxH).2 := by
  have hwh' : w' > h' := by
    by_contra hc
    have h1 : w' * h ≤ h' * h := Nat.mul_le_mul_right _ (by omega)
    have h2 : h * h' < w * h' := Nat.mul_lt_mul_of_pos_right hwh hh'
    have h3 : h' * h = h * h' := Nat.mul_comm _ _
    omega
  simp only [newDimensions, if_pos hex, if_pos hex', if_pos hwh, if_pos hwh']
  obtain ⟨hWd, hWn⟩ := f64OfInt_exact w hw2
  obtain ⟨hHd, hHn⟩ := f64OfInt_exact h hh2
  obtain ⟨hWd', hWn'⟩ := f64OfInt_exact w' hw2'
  obtain ⟨hHd', hHn'⟩ := f64OfInt_exact h' hh2'
  obtain ⟨hMd, hMn⟩ := f64OfInt_exact maxW hm
  have hHn0 : 0 < (f64OfInt h).num := by rw [hHn]; positivity
  have hHn0' : 0 < (f64OfInt h').num := by rw [hHn']; positivity
  have hWn0 : 0 < (f64OfInt w).num := by rw [hWn]; positivity
  have hWn0' : 0 < (f64OfInt w').num := by rw [hWn']; positivity
  -- the two ratios are the same float
  have hr := f64Round_congr
    ⟨(f64OfInt w).num * (f64OfInt h).den, (f64OfInt w).den * (f64OfInt h).num⟩
    ⟨(f64OfInt w').num * (f64OfInt h').den, (f64OfInt w').den * (f64OfInt h').num⟩
    (Nat.mul_pos hWd hHn0) (Nat.mul_pos hWd' hHn0') (by
      simp only
      rw [hWn, hHn, hWn', hHn']
      calc w * (f64OfInt w).den * (f64OfInt h).den *
            ((f64OfInt w').den * (h' * (f64OfInt h').den))
          = (w * h') * ((f64OfInt w).den * (f64OfInt h).den * (f64OfInt w').den *
              (f64OfInt h').den) := by ring
        _ = (w' * h) * ((f64OfInt w).den * (f64OfInt h).den * (f64OfInt w').den *
              (f64OfInt h').den) := by rw [hasp]
        _ = w' * (f64OfInt w').den * (f64OfInt h').den *
            ((f64OfInt w).den * (h * (f64OfInt h).den)) := by ring)
  obtain ⟨r1, r2, -, -⟩ := f64Round_rel
    ⟨(f64OfInt w).num * (f64OfInt h).den, (f64OfInt w).den * (f64OfInt h).num⟩
    (Nat.mul_pos hWd hHn0)
  obtain ⟨r1', r2', -, -⟩ := f64Round_rel
    ⟨(f64OfInt w').num * (f64OfInt h').den, (f64OfInt w').den * (f64OfInt h').num⟩
    (Nat.mul_pos hWd' hHn0')
  have r3 := r2 (Nat.mul_pos hWn0 hHd)
  have r3' := r2' (Nat.mul_pos hWn0' hHd')
  change (f64Div (f64OfInt w) (f64OfInt h)).num * (f64Div (f64OfInt w') (f64OfInt h')).den
    = (f64Div (f64OfInt w') (f64OfInt h')).num * (f64Div (f64OfInt w) (f64OfInt h)).den at hr
  change 0 < (f64Div (f64OfInt w) (f64OfInt h)).den at r1
  change 0 < (f64Div (f64OfInt w') (f64OfInt h')).den at r1'
  change 0 < (f64Div (f64OfInt w) (f64OfInt h)).num at r3
  change 0 < (f64Div (f64OfInt w') (f64OfInt h')).num at r3'
  generalize f64Div (f64OfInt w) (f64OfInt h) = r at hr r1 r3 ⊢
  generalize f64Div (f64OfInt w') (f64OfInt h') = r' at hr r1' r3' ⊢
  have hq := f64Round_congr
    ⟨(f64OfInt maxW).num * r.den, (f64OfInt maxW).den * r.num⟩
    ⟨(f64OfInt maxW).num * r'.den, (f64OfInt maxW).den * r'.num⟩
    (Nat.mul_pos hMd r3) (Nat.mul_pos hMd r3') (by
      simp only
      calc (f64OfInt maxW).num * r.den * ((f64OfInt maxW).den * r'.num)
          = (f64OfInt maxW).num * (f64OfInt maxW).den * (r'.num * r.den) := by ring
        _ = (f64OfInt maxW).num * (f64OfInt maxW).den * (r.num * r'.den) := by rw [hr]
        _ = (f64OfInt maxW).num * r'.den * ((f64OfInt maxW).den * r.num) := by ring)
  have d1 := (f64Round_rel ⟨(f64OfInt maxW).num * r.den, (f64OfInt maxW).den * r.num⟩
    (Nat.mul_pos hMd r3)).1
  have d2 := (f64Round_rel ⟨(f64OfInt maxW).num * r'.den, (f64OfInt maxW).den * r'.num⟩
    (Nat.mul_pos hMd r3')).1
  exact f64ToInt_congr _ _ d1 d2 hq

theorem newDimensions_landscape_exact (w h maxW maxH : Nat) (hw : 0 < w) (hh : 0 < h)
    (hw2 : w < 2 ^ 31) (hh2 : h < 2 ^ 31) (hm : maxW < 2 ^ 20)
    (hex : w > maxW ∨ h > maxH) (hwh : w > h) (hrem : (maxW * h) % w ≠ 0) :
    (newDimensions w h maxW maxH).2 = maxW * h / w := by
  obtain ⟨-, b, -⟩ := newDimensions_landscape w h maxW maxH hw hh hw2 hh2 hm hex hwh
  have hb : (2 : ℕ) ^ 31 < 2 ^ 53 := by norm_num
  have hb2 : (2 : ℕ) ^ 20 < 2 ^ 53 := by norm_num
  obtain ⟨y1, -⟩ := divChain_rel maxW w h hw hh (by omega) (by omega) (by omega)
  have hp : 4 * (maxW * h) < 2 ^ 53 := by
    have : maxW * h < 2 ^ 20 * 2 ^ 31 := Nat.mul_lt_mul'' hm hh2
    norm_num at this ⊢
    omega
  have := floor_exact (maxW * h) w hw hp hrem _ y1
  rw [← f64ToInt_eq_floor] at this
  have e : (newDimensions w h maxW maxH).2 =
      f64ToInt (f64Div (f64OfInt maxW) (f64Div (f64OfInt w) (f64OfInt h))) := by
    simp only [newDimensions, if_pos hex, if_pos hwh]
  rw [e] at b ⊢
  omega

/-- Height computed for a landscape upload that exceeds a cap: it is at most 1080 exactly
when `1920 * h < 1081 * w`. -/
theorem upload_height_landscape (w h : Nat) (hw : 0 < w) (hh : 0 < h)
    (hw2 : w < 2 ^ 31) (hh2 : h < 2 ^ 31) (hex : w > 1920 ∨ h > 1080) (hwh : w > h) :
    (newDimensions w h 1920 1080).2 ≤ 1080 ↔ 1920 * h < 1081 * w := by
  obtain ⟨-, b, c⟩ := newDimensions_landscape w h 1920 1080 hw hh hw2 hh2 (by norm_num) hex hwh
  constructor
  · intro hle
    by_contra hc
    have hge : 1081 * w ≤ 1920 * h := by omega
    have hn : 1081 ≤ 1920 * h / w := (Nat.le_div_iff_mul_le hw).2 hge
    by_cases hrem : (1920 * h) % w = 0
    · by_cases heq : 1920 * h = 1081 * w
      · -- the aspect ratio is exactly 1920 : 1081
        have hasp : w * 1081 = 1920 * h := by omega
        have h0 := newDimensions_aspect w h 1920 1081 1920 1080 hw hh (by norm_num)
          (by norm_num) (by omega) (by omega) (by norm_num) (by norm_num) (by norm_num)
          hasp hex (by omega) hwh
        have h1 : newDimensions 1920 1081 1920 1080 = (1920, 1081) := by
          set_option maxRecDepth 20000 in decide
        rw [h1] at h0
        simp only at h0
        omega
      · have hmod := Nat.div_add_mod (1920 * h) w
        rw [hrem] at hmod
        have : 1081 < 1920 * h / w := by
          by_contra hcc
          have : 1920 * h / w = 1081 := by omega
          rw [this] at hmod
          omega
        omega
    · have := newDimensions_landscape_exact w h 1920 1080 hw hh hw2 hh2 (by norm_num) hex hwh
        hrem
      omega
  · intro hlt
    have : 1920 * h / w ≤ 1080 := by
      have : 1920 * h / w < 1081 := (Nat.div_lt_iff_lt_mul hw).2 hlt
      omega
    omega

/-- C1 (counterexample): for a 1920x1428 image and caps 1920x1080 the code computes
1920x1427, while the rule of the specification in exact arithmetic gives 1920x1428. -/
theorem C1_counterexample :
    newDimensions 1920 1428 1920 1080 = (1920, 1427) ∧
    specDimensions 1920 1428 1920 1080 = (1920, 1428) ∧
    newDimensions 1920 1428 1920 1080 ≠ specDimensions 1920 1428 1920 1080 := by
  have h1 : newDimensions 1920 1428 1920 1080 = (1920, 1427) := by
    set_option maxRecDepth 20000 in decide
  have h2 : specDimensions 1920 1428 1920 1080 = (1920, 1428) := by
    rw [specDimensions_eq]; decide
  refine ⟨h1, h2, ?_⟩
  rw [h1, h2]; decide

/-- C1 (amended): for positive dimensions below 2^31 and caps below 2^20, when a
dimension exceeds its cap the controlling axis is set to its cap exactly as in the rule
of the specification, and the other axis, computed in float64, is the floor of the rule
or one less; 4000x2000 with caps 1920x1080 gives 1920x960 and 2000x4000 gives 540x1080. -/
theorem C1_newDimensions_rule (w h maxW maxH : Nat) (hw : 0 < w) (hh : 0 < h)
    (hw2 : w < 2 ^ 31) (hh2 : h < 2 ^ 31) (hmw : maxW < 2 ^ 20) (hmh : maxH < 2 ^ 20)
    (hex : w > maxW ∨ h > maxH) :
    (w > h →
      (newDimensions w h maxW maxH).1 = maxW ∧
      (specDimensions w h maxW maxH).1 = maxW ∧
      (newDimensions w h maxW maxH).2 ≤ (specDimensions w h maxW maxH).2 ∧
      (specDimensions w h maxW maxH).2 ≤ (newDimensions w h maxW maxH).2 + 1) ∧
    (¬ w > h →
      (newDimensions w h maxW maxH).2 = maxH ∧
      (specDimensions w h maxW maxH).2 = maxH ∧
      (newDimensions w h maxW maxH).1 ≤ (specDimensions w h maxW maxH).1 ∧
      (specDimensions w h maxW maxH).1 ≤ (newDimensions w h maxW maxH).1 + 1) ∧
    newDimensions 4000 2000 1920 1080 = (1920, 960) ∧
    newDimensions 2000 4000 1920 1080 = (540, 1080) := by
  refine ⟨fun hwh => ?_, fun hwh => ?_, ?_, ?_⟩
  · obtain ⟨a, b, c⟩ := newDimensions_landscape w h maxW maxH hw hh hw2 hh2 hmw hex hwh
    rw [specDimensions_eq]
    simp only [if_pos hex, if_pos hwh]
    exact ⟨a, trivial, b, c⟩
  · obtain ⟨a, b, c⟩ := newDimensions_portrait w h maxW maxH hw hh hw2 hh2 hmh hex hwh
    rw [specDimensions_eq]
    simp only [if_pos hex, if_neg hwh]
    exact ⟨a, trivial, b, c⟩
  · set_option maxRecDepth 20000 in decide
  · set_option maxRecDepth 20000 in decide

/-- Witness of C1 (amended) at a 1920x1428 image with caps 1920x1080. -/
theorem C1_newDimensions_rule_witness :
    (newDimensions 1920 1428 1920 1080).2 ≤ (specDimensions 1920 1428 1920 1080).2 ∧
    (specDimensions 1920 1428 1920 1080).2 ≤ (newDimensions 1920 1428 1920 1080).2 + 1 :=
  let t := (C1_newDimensions_rule 1920 1428 1920 1080 (by decide) (by decide) (by decide)
    (by decide) (by decide) (by decide) (by decide)).1 (by decide)
  ⟨t.2.2.1, t.2.2.2⟩

/-- C2 (counterexample): a 2000x1999 upload is resized with caps 1920x1080 to 1920x1919,
which is higher than 1080. -/
theorem C2_counterexample :
    newDimensions 2000 1999 1920 1080 = (1920, 1919) ∧
    ¬ ((newDimensions 2000 1999 1920 1080).1 ≤ 1920 ∧
       (newDimensions 2000 1999 1920 1080).2 ≤ 1080) := by
  have h1 : newDimensions 2000 1999 1920 1080 = (1920, 1919) := by
    set_option maxRecDepth 20000 in decide
  refine ⟨h1, ?_⟩
  rw [h1]; decide

/-- File written by `ResizeImage` when the computed dimensions differ from those of the
decoded image and the file can be created: the encoding of the resampled image, in the
format of the original. -/
theorem ResizeImage_writes (codec : ImageLib) (fs : FS) (filePath : String) (maxW maxH : Nat)
    (data : Bytes) (img : Image) (format : String) (hf : fs filePath = some data)
    (hdec : codec.Decode data = .ok (img, format))
    (hd : newDimensions img.width img.height maxW maxH ≠ (img.width, img.height))
    (hcreate : codec.Create filePath = none) :
    (format = "jpeg" → (ResizeImage codec fs filePath maxW maxH).1 filePath =
      some (codec.jpegEncode (resample img (newDimensions img.width img.height maxW maxH).1
        (newDimensions img.width img.height maxW maxH).2) 95).1) ∧
    (format = "png" → (ResizeImage codec fs filePath maxW maxH).1 filePath =
      some (codec.pngEncode (resample img (newDimensions img.width img.height maxW maxH).1
        (newDimensions img.width img.height maxW maxH).2)).1) := by
  have hne : (newDimensions img.width img.height maxW maxH).1 ≠ img.width ∨
      (newDimensions img.width img.height maxW maxH).2 ≠ img.height := by
    by_contra hc
    push_neg at hc
    exact hd (Prod.ext hc.1 hc.2)
  constructor
  · intro hfmt
    subst hfmt
    simp only [ResizeImage, hf, hdec, if_pos hne, hcreate, if_true]
    split <;> simp [FS.write]
  · intro hfmt
    subst hfmt
    have hj : ¬ ("png" = "jpeg") := by decide
    simp only [ResizeImage, hf, hdec, if_pos hne, hcreate, if_neg hj, if_true]
    split <;> simp [FS.write]

/-- File system left by the upload handler for an accepted request: that of
`ResizeImage` with the caps 1920 and 1080 on the saved file. -/
theorem UploadImage_resizes (lib : GoLib) (codec : ImageLib) (fs fs1 : FS) (imageID : String)
    (req : UploadRequest) (u : UploadedImage)
    (hfmt : ValidateImageFormat lib req.Format = none)
    (hsize : ValidateImageSize lib req.ImageData = none)
    (hsave : SaveImageFromBase64 lib fs imageID req.ImageData req.Format = (fs1, .ok u)) :
    (UploadImage lib codec fs imageID (.ok req)).1 =
      (ResizeImage codec fs1 u.FilePath 1920 1080).1 := by
  simp only [UploadImage, hfmt, hsize, hsave]
  split <;> simp_all

/-- C2 (amended): the upload handler resizes the saved file with the caps 1920 and 1080,
and the image written by that resize has the dimensions computed by `newDimensions`; for
positive dimensions below 2^31 the resulting width is at most 1920, the resulting height
is at most 1920, and the resulting height is at most 1080 exactly when the image already
fits both caps, or is not wider than high, or satisfies `1920 * h < 1081 * w` (which
holds for every image at least as wide as 16:9). -/
theorem C2_upload_dimensions (w h : Nat) (hw : 0 < w) (hh : 0 < h)
    (hw2 : w < 2 ^ 31) (hh2 : h < 2 ^ 31) :
    ((newDimensions w h 1920 1080).1 ≤ 1920 ∧
      (newDimensions w h 1920 1080).2 ≤ 1920 ∧
      ((newDimensions w h 1920 1080).2 ≤ 1080 ↔
        ((w ≤ 1920 ∧ h ≤ 1080) ∨ w ≤ h ∨ 1920 * h < 1081 * w)) ∧
      (16 * h ≤ 9 * w → 1920 * h < 1081 * w)) ∧
    (∀ (lib : GoLib) (codec : ImageLib) (fs fs1 : FS) (imageID : String)
      (req : UploadRequest) (u : UploadedImage),
      ValidateImageFormat lib req.Format = none →
      ValidateImageSize lib req.ImageData = none →
      SaveImageFromBase64 lib fs imageID req.ImageData req.Format = (fs1, .ok u) →
      (UploadImage lib codec fs imageID (.ok req)).1 =
        (ResizeImage codec fs1 u.FilePath 1920 1080).1) ∧
    (∀ (codec : ImageLib) (fs : FS) (filePath : String) (data : Bytes) (img : Image)
      (format : String), img.width = w → img.height = h → fs filePath = some data →
      codec.Decode data = .ok (img, format) →
      newDimensions w h 1920 1080 ≠ (w, h) →
      codec.Create filePath = none →
      (resample img (newDimensions w h 1920 1080).1 (newDimensions w h 1920 1080).2).width
        = (newDimensions w h 1920 1080).1 ∧
      (resample img (newDimensions w h 1920 1080).1 (newDimensions w h 1920 1080).2).height
        = (newDimensions w h 1920 1080).2 ∧
      (format = "jpeg" → (ResizeImage codec fs filePath 1920 1080).1 filePath =
        some (codec.jpegEncode (resample img (newDimensions w h 1920 1080).1
          (newDimensions w h 1920 1080).2) 95).1) ∧
      (format = "png" → (ResizeImage codec fs filePath 1920 1080).1 filePath =
        some (codec.pngEncode (resample img (newDimensions w h 1920 1080).1
          (newDimensions w h 1920 1080).2)).1)) := by
  refine ⟨?_, ?_, ?_⟩
  · by_cases hex : w > 1920 ∨ h > 1080
    · by_cases hwh : w > h
      · obtain ⟨a, b, -⟩ :=
          newDimensions_landscape w h 1920 1080 hw hh hw2 hh2 (by norm_num) hex hwh
        have h1 : 1920 * h / w ≤ 1920 := Nat.div_le_of_le_mul (by nlinarith)
        have hiff := upload_height_landscape w h hw hh hw2 hh2 hex hwh
        refine ⟨by omega, by omega, ?_, fun hc => by omega⟩
        rw [hiff]
        constructor
        · intro hlt
          exact Or.inr (Or.inr hlt)
        · intro hc
          rcases hc with hc | hc | hc
          · omega
          · omega
          · exact hc
      · obtain ⟨a, b, -⟩ :=
          newDimensions_portrait w h 1920 1080 hw hh hw2 hh2 (by norm_num) hex hwh
        have h1 : 1080 * w / h ≤ 1080 := Nat.div_le_of_le_mul (by nlinarith)
        refine ⟨by omega, by omega, ?_, fun hc => by omega⟩
        constructor
        · intro _
          exact Or.inr (Or.inl (by omega))
        · intro _
          omega
    · rw [newDimensions_unchanged w h 1920 1080 hex]
      simp only
      refine ⟨by omega, by omega, ?_, fun hc => by omega⟩
      constructor
      · intro _
        exact Or.inl (by omega)
      · intro _
        omega
  · intro lib codec fs fs1 imageID req u hfmt hsize hsave
    exact UploadImage_resizes lib codec fs fs1 imageID req u hfmt hsize hsave
  · intro codec fs filePath data img format hiw hih hf hdec hd hcreate
    subst hiw hih
    obtain ⟨a, b⟩ :=
      ResizeImage_writes codec fs filePath 1920 1080 data img format hf hdec hd hcreate
    exact ⟨rfl, rfl, a, b⟩

/-- Witness of C2 (amended) at a 4000x2000 upload. -/
theorem C2_upload_dimensions_witness :
    (newDimensions 4000 2000 1920 1080).1 ≤ 1920 ∧
    (newDimensions 4000 2000 1920 1080).2 ≤ 1080 :=
  let t := (C2_upload_dimensions 4000 2000 (by decide) (by decide) (by decide) (by decide)).1
  ⟨t.1, t.2.2.1.2 (Or.inr (Or.inr (by decide)))⟩

/-- A run of `ResizeImage` on a file whose image already has the computed dimensions takes
the no-resize branch: the file system is unchanged and no error is returned. -/
theorem ResizeImage_noop (codec : ImageLib) (fs : FS) (filePath : String) (maxW maxH : Nat)
    (data : Bytes) (img : Image) (format : String) (hf : fs filePath = some data)
    (hdec : codec.Decode data = .ok (img, format))
    (hd : newDimensions img.width img.height maxW maxH = (img.width, img.height)) :
    ResizeImage codec fs filePath maxW maxH = (fs, none) := by
  simp [ResizeImage, hf, hdec, hd]

theorem newDimensions_second_landscape (w h maxW maxH : Nat) (hw : 0 < w) (hh : 0 < h)
    (hw2 : w < 2 ^ 31) (hh2 : h < 2 ^ 31) (hmw : maxW < 2 ^ 20) (hwh : w > h) :
    (newDimensions (newDimensions w h maxW maxH).1 (newDimensions w h maxW maxH).2 maxW maxH).1
      = (newDimensions w h maxW maxH).1 ∧
    (newDimensions (newDimensions w h maxW maxH).1 (newDimensions w h maxW maxH).2 maxW maxH).2
      ≤ (newDimensions w h maxW maxH).2 ∧
    (newDimensions w h maxW maxH).2 ≤
      (newDimensions (newDimensions w h maxW maxH).1 (newDimensions w h maxW maxH).2
        maxW maxH).2 + 1 := by
  by_cases hex : w > maxW ∨ h > maxH
  · obtain ⟨a, b, -⟩ := newDimensions_landscape w h maxW maxH hw hh hw2 hh2 hmw hex hwh
    generalize newDimensions w h maxW maxH = d at a b ⊢
    obtain ⟨d1, h1⟩ := d
    simp only at a b ⊢
    subst a
    by_cases hex2 : d1 > d1 ∨ h1 > maxH
    · have hh1 : 0 < h1 := by omega
      have hlt : d1 * h / w < d1 := by
        apply Nat.div_lt_of_lt_mul
        have hd1 : 0 < d1 := by
          rcases Nat.eq_zero_or_pos d1 with h0 | h0
          · subst h0; simp at b; omega
          · exact h0
        nlinarith
      have hd1h1 : d1 > h1 := by omega
      obtain ⟨a2, b2, c2⟩ := newDimensions_landscape d1 h1 d1 maxH (by omega) hh1
        (by omega) (by omega) hmw hex2 hd1h1
      have e : d1 * h1 / d1 = h1 := Nat.mul_div_cancel_left h1 (by omega)
      rw [e] at b2 c2
      exact ⟨a2, b2, c2⟩
    · rw [newDimensions_unchanged d1 h1 d1 maxH hex2]
      simp
  · rw [newDimensions_unchanged w h maxW maxH hex]
    simp only
    rw [newDimensions_unchanged w h maxW maxH hex]
    simp

theorem newDimensions_second_portrait (w h maxW maxH : Nat) (hw : 0 < w) (hh : 0 < h)
    (hw2 : w < 2 ^ 31) (hh2 : h < 2 ^ 31) (hmh : maxH < 2 ^ 20) (hwh : ¬ w > h) :
    (newDimensions (newDimensions w h maxW maxH).1 (newDimensions w h maxW maxH).2 maxW maxH).2
      = (newDimensions w h maxW maxH).2 ∧
    (newDimensions (newDimensions w h maxW maxH).1 (newDimensions w h maxW maxH).2 maxW maxH).1
      ≤ (newDimensions w h maxW maxH).1 ∧
    (newDimensions w h maxW maxH).1 ≤
      (newDimensions (newDimensions w h maxW maxH).1 (newDimensions w h maxW maxH).2
        maxW maxH).1 + 1 := by
  by_cases hex : w > maxW ∨ h > maxH
  · obtain ⟨a, b, -⟩ := newDimensions_portrait w h maxW maxH hw hh hw2 hh2 hmh hex hwh
    generalize newDimensions w h maxW maxH = d at a b ⊢
    obtain ⟨w1, d2⟩ := d
    simp only at a b ⊢
    subst a
    by_cases hex2 : w1 > maxW ∨ d2 > d2
    · have hw1 : 0 < w1 := by omega
      have hle : d2 * w / h ≤ d2 := Nat.div_le_of_le_mul (by nlinarith)
      have hd2 : 0 < d2 := by omega
      obtain ⟨a2, b2, c2⟩ := newDimensions_portrait w1 d2 maxW d2 hw1 hd2
        (by omega) (by omega) hmh hex2 (by omega)
      have e : d2 * w1 / d2 = w1 := Nat.mul_div_cancel_left w1 hd2
      rw [e] at b2 c2
      exact ⟨a2, b2, c2⟩
    · rw [newDimensions_unchanged w1 d2 maxW d2 hex2]
      simp
  · rw [newDimensions_unchanged w h maxW maxH hex]
    simp only
    rw [newDimensions_unchanged w h maxW maxH hex]
    simp

/-- C3 (counterexample): a 3840x2857 image with caps 1920x1080 is resized to 1920x1428 by
the first run, and the second run computes 1920x1427 for it, not 1920x1428. -/
theorem C3_counterexample :
    newDimensions 3840 2857 1920 1080 = (1920, 1428) ∧
    newDimensions (newDimensions 3840 2857 1920 1080).1 (newDimensions 3840 2857 1920 1080).2
      1920 1080 ≠ newDimensions 3840 2857 1920 1080 := by
  have h1 : newDimensions 3840 2857 1920 1080 = (1920, 1428) := by
    set_option maxRecDepth 20000 in decide
  have h2 : newDimensions 1920 1428 1920 1080 = (1920, 1427) := by
    set_option maxRecDepth 20000 in decide
  refine ⟨h1, ?_⟩
  rw [h1]
  simp only
  rw [h2]
  decide

/-- C3 (amended): for positive dimensions below 2^31 and caps below 2^20, a second run
with the same caps computes the same dimensions whenever the result of the first run
fits within both caps; in every case it keeps the controlling axis and computes for the
other axis the value of the first run or one less; and a run that computes the
dimensions the file already has leaves the file system as it is and returns no error. -/
theorem C3_second_run (w h maxW maxH : Nat) (hw : 0 < w) (hh : 0 < h)
    (hw2 : w < 2 ^ 31) (hh2 : h < 2 ^ 31) (hmw : maxW < 2 ^ 20) (hmh : maxH < 2 ^ 20) :
    ((newDimensions w h maxW maxH).1 ≤ maxW ∧ (newDimensions w h maxW maxH).2 ≤ maxH →
      newDimensions (newDimensions w h maxW maxH).1 (newDimensions w h maxW maxH).2 maxW maxH
        = newDimensions w h maxW maxH) ∧
    (w > h →
      (newDimensions (newDimensions w h maxW maxH).1 (newDimensions w h maxW maxH).2
        maxW maxH).1 = (newDimensions w h maxW maxH).1 ∧
      (newDimensions (newDimensions w h maxW maxH).1 (newDimensions w h maxW maxH).2
        maxW maxH).2 ≤ (newDimensions w h maxW maxH).2 ∧
      (newDimensions w h maxW maxH).2 ≤
        (newDimensions (newDimensions w h maxW maxH).1 (newDimensions w h maxW maxH).2
          maxW maxH).2 + 1) ∧
    (¬ w > h →
      (newDimensions (newDimensions w h maxW maxH).1 (newDimensions w h maxW maxH).2
        maxW maxH).2 = (newDimensions w h maxW maxH).2 ∧
      (newDimensions (newDimensions w h maxW maxH).1 (newDimensions w h maxW maxH).2
        maxW maxH).1 ≤ (newDimensions w h maxW maxH).1 ∧
      (newDimensions w h maxW maxH).1 ≤
        (newDimensions (newDimensions w h maxW maxH).1 (newDimensions w h maxW maxH).2
          maxW maxH).1 + 1) ∧
    (∀ (codec : ImageLib) (fs : FS) (filePath : String) (data : Bytes) (img : Image)
        (format : String), fs filePath = some data → codec.Decode data = .ok (img, format) →
        newDimensions img.width img.height maxW maxH = (img.width, img.height) →
        ResizeImage codec fs filePath maxW maxH = (fs, none)) := by
  refine ⟨fun hfit => ?_, fun hwh => ?_, fun hwh => ?_, ?_⟩
  · apply newDimensions_unchanged
    omega
  · exact newDimensions_second_landscape w h maxW maxH hw hh hw2 hh2 hmw hwh
  · exact newDimensions_second_portrait w h maxW maxH hw hh hw2 hh2 hmh hwh
  · intro codec fs filePath data img format hf hdec hd
    exact ResizeImage_noop codec fs filePath maxW maxH data img format hf hdec hd

/-- Witness of C3 (amended) at a 4000x2000 image with caps 1920x1080. -/
theorem C3_second_run_witness :
    newDimensions (newDimensions 4000 2000 1920 1080).1 (newDimensions 4000 2000 1920 1080).2
      1920 1080 = newDimensions 4000 2000 1920 1080 :=
  (C3_second_run 4000 2000 1920 1080 (by decide) (by decide) (by decide) (by decide)
    (by decide) (by decide)).1 (by
      have h : newDimensions 4000 2000 1920 1080 = (1920, 960) := by
        set_option maxRecDepth 20000 in decide
      rw [h]; decide)

/-! ## Makeup pipeline -/

theorem opsOf_applyMakeupToFace (cv : Cv) (img : Mat) (face : Rectangle) (style : MakeupStyle)
    (hid : style.ID ∈ catalogIds) (hface : img.ValidRegion face) :
    opsOf (applyMakeupToFace cv img face style).1 = specSequence style.ID := by
  simp only [catalogIds, List.mem_cons, List.mem_singleton, List.not_mem_nil, or_false] at hid
  rcases hid with h | h | h | h | h | h <;>
    simp [applyMakeupToFace, Mat.Region, hface, h, applyNaturalMakeup, applyBridalMakeup,
      applyEditorialMakeup, applyEveningMakeup, applyProfessionalMakeup, applyCreativeMakeup,
      enhanceSkin, enhanceLips, enhanceEyes, addBlush, addContouring, addShimmer,
      addCreativeElements, View.log, View.write, opsOf, Call.toOp, specSequence]

theorem applyMakeupToFace_refines (cv : Cv) (img : Mat) (face : Rectangle)
    (style : MakeupStyle) (hid : style.ID ∈ catalogIds) (hface : img.ValidRegion face) :
    (applyMakeupToFace cv img face style).2 =
      some (specPipeline cv (specSequence style.ID) ⟨img, face, []⟩).parent := by
  simp only [catalogIds, List.mem_cons, List.mem_singleton, List.not_mem_nil, or_false] at hid
  rcases hid with h | h | h | h | h | h <;>
    simp [applyMakeupToFace, Mat.Region, hface, h, applyNaturalMakeup, applyBridalMakeup,
      applyEditorialMakeup, applyEveningMakeup, applyProfessionalMakeup, applyCreativeMakeup,
      enhanceSkin, enhanceLips, enhanceEyes, addBlush, addContouring, addShimmer,
      addCreativeElements, View.log, View.write, View.read, specSequence, specPipeline,
      specPrimitive]

/-- C4: for each of the six style ids and every face rectangle inside the image, the
primitive operations that `applyMakeupToFace` runs on the face region, in order and with
their intensity and colour parameters, are the row of the table of the specification:
the calls it makes bear the names and parameters of that row, and the matrix it returns
is the image after the primitives of that row, as the specification defines them, have
been run in order on the face region, whatever the image-processing library computes. -/
theorem C4_style_sequences (cv : Cv) (img : Mat) (face : Rectangle) (style : MakeupStyle)
    (hid : style.ID ∈ catalogIds) (hface : img.ValidRegion face) :
    opsOf (applyMakeupToFace cv img face style).1 = specSequence style.ID ∧
    (applyMakeupToFace cv img face style).2 =
      some (specPipeline cv (specSequence style.ID) ⟨img, face, []⟩).parent :=
  ⟨opsOf_applyMakeupToFace cv img face style hid hface,
    applyMakeupToFace_refines cv img face style hid hface⟩

/-- Witness of C4 for the bridal style on the sample matrix and face. -/
theorem C4_style_sequences_witness :
    opsOf (applyMakeupToFace sampleCv sampleMat sampleFace (styleWithId "bridal")).1 =
      [.smooth_skin 0.2, .tint_overlay 255 150 150, .enhance_eyes 0.1, .add_blush 255 180 180] :=
  (C4_style_sequences sampleCv sampleMat sampleFace (styleWithId "bridal")
    (by decide) (by decide)).1

theorem Framed.refl (v : View) : Framed v v := ⟨rfl, rfl, rfl, fun _ _ _ => rfl⟩

theorem Framed.write_log (v0 v : View) (c : Call) (m : Mat) (h : Framed v0 v) :
    Framed v0 ((v.log c).write m) := by
  obtain ⟨h1, h2, h3, h4⟩ := h
  refine ⟨h1, h2, h3, fun row col hout => ?_⟩
  have hout2 : ¬ v.rect.Contains row col := by rw [h1]; exact hout
  simp only [View.write, View.log, if_neg hout2]
  exact h4 row col hout

theorem Framed.enhanceSkin (cv : Cv) (v0 v : View) (i : ℚ) (h : Framed v0 v) :
    Framed v0 (enhanceSkin cv v i) := Framed.write_log v0 v _ _ h

theorem Framed.enhanceLips (cv : Cv) (v0 v : View) (c : RGBA) (h : Framed v0 v) :
    Framed v0 (enhanceLips cv v c) := Framed.write_log v0 v _ _ h

theorem Framed.enhanceEyes (cv : Cv) (v0 v : View) (i : ℚ) (h : Framed v0 v) :
    Framed v0 (enhanceEyes cv v i) := Framed.write_log v0 v _ _ h

theorem Framed.addBlush (cv : Cv) (v0 v : View) (c : RGBA) (h : Framed v0 v) :
    Framed v0 (addBlush cv v c) := Framed.write_log v0 v _ _ h

theorem Framed.addContouring (cv : Cv) (v0 v : View) (h : Framed v0 v) :
    Framed v0 (addContouring cv v) := Framed.write_log v0 v _ _ h

theorem Framed.addShimmer (cv : Cv) (v0 v : View) (h : Framed v0 v) :
    Framed v0 (addShimmer cv v) := Framed.write_log v0 v _ _ h

theorem Framed.addCreativeElements (cv : Cv) (v0 v : View) (h : Framed v0 v) :
    Framed v0 (addCreativeElements cv v) := Framed.write_log v0 v _ _ h

theorem Framed.applyNaturalMakeup (cv : Cv) (v : View) : Framed v (applyNaturalMakeup cv v) :=
  Framed.enhanceEyes cv v _ _ (Framed.enhanceLips cv v _ _
    (Framed.enhanceSkin cv v _ _ (Framed.refl v)))

theorem Framed.applyBridalMakeup (cv : Cv) (v : View) : Framed v (applyBridalMakeup cv v) :=
  Framed.addBlush cv v _ _ (Framed.enhanceEyes cv v _ _ (Framed.enhanceLips cv v _ _
    (Framed.enhanceSkin cv v _ _ (Framed.refl v))))

theorem Framed.applyEditorialMakeup (cv : Cv) (v : View) :
    Framed v (applyEditorialMakeup cv v) :=
  Framed.addContouring cv v _ (Framed.enhanceEyes cv v _ _ (Framed.enhanceLips cv v _ _
    (Framed.enhanceSkin cv v _ _ (Framed.refl v))))

theorem Framed.applyEveningMakeup (cv : Cv) (v : View) : Framed v (applyEveningMakeup cv v) :=
  Framed.addShimmer cv v _ (Framed.enhanceEyes cv v _ _ (Framed.enhanceLips cv v _ _
    (Framed.enhanceSkin cv v _ _ (Framed.refl v))))

theorem Framed.applyProfessionalMakeup (cv : Cv) (v : View) :
    Framed v (applyProfessionalMakeup cv v) :=
  Framed.enhanceEyes cv v _ _ (Framed.enhanceLips cv v _ _
    (Framed.enhanceSkin cv v _ _ (Framed.refl v)))

theorem Framed.applyCreativeMakeup (cv : Cv) (v : View) :
    Framed v (applyCreativeMakeup cv v) :=
  Framed.addCreativeElements cv v _ (Framed.enhanceEyes cv v _ _ (Framed.enhanceLips cv v _ _
    (Framed.enhanceSkin cv v _ _ (Framed.refl v))))

/-- C5: for every image, every face rectangle inside it and every style, the matrix
returned by `applyMakeupToFace` has the rows and columns of the image and every pixel
outside the face rectangle is the pixel of the image. -/
theorem C5_outside_face_unchanged (cv : Cv) (img : Mat) (face : Rectangle)
    (style : MakeupStyle) (hface : img.ValidRegion face) :
    ∃ result, (applyMakeupToFace cv img face style).2 = some result ∧
      result.rows = img.rows ∧ result.cols = img.cols ∧
      ∀ row col, ¬ face.Contains row col → result.px row col = img.px row col := by
  simp only [applyMakeupToFace, Mat.Region, if_pos hface]
  refine ⟨_, rfl, ?_⟩
  have key : ∀ v : View, Framed ⟨img, face, [Call.Region face]⟩ v →
      v.parent.rows = img.rows ∧ v.parent.cols = img.cols ∧
      ∀ row col, ¬ face.Contains row col → v.parent.px row col = img.px row col :=
    fun v h => ⟨h.2.1, h.2.2.1, h.2.2.2⟩
  apply key
  split_ifs
  · exact Framed.applyNaturalMakeup cv _
  · exact Framed.applyBridalMakeup cv _
  · exact Framed.applyEditorialMakeup cv _
  · exact Framed.applyEveningMakeup cv _
  · exact Framed.applyProfessionalMakeup cv _
  · exact Framed.applyCreativeMakeup cv _
  · exact Framed.applyNaturalMakeup cv _

/-- Witness of C5 on the sample matrix and face with the creative style. -/
theorem C5_outside_face_unchanged_witness :
    ∃ result, (applyMakeupToFace sampleCv sampleMat sampleFace (styleWithId "creative")).2
        = some result ∧
      result.rows = sampleMat.rows ∧ result.cols = sampleMat.cols ∧
      ∀ row col, ¬ sampleFace.Contains row col → result.px row col = sampleMat.px row col :=
  C5_outside_face_unchanged sampleCv sampleMat sampleFace (styleWithId "creative") (by decide)

theorem GetStyle_styles :
    NewMakeupService.styles = initialStyles.map (fun style => (style.ID, style)) := by
  decide

theorem GetStyle_unknown (styleID : String) (h : styleID ∉ catalogIds) :
    (GetStyle NewMakeupService styleID).2 = false := by
  simp only [catalogIds, List.mem_cons, List.mem_singleton, List.not_mem_nil, or_false,
    not_or] at h
  obtain ⟨h1, h2, h3, h4, h5, h6⟩ := h
  simp [GetStyle, GetStyle_styles, initialStyles, List.find?, Ne.symm h1, Ne.symm h2,
    Ne.symm h3, Ne.symm h4, Ne.symm h5, Ne.symm h6]

theorem GetStyle_known (styleID : String) (h : styleID ∈ catalogIds) :
    (GetStyle NewMakeupService styleID).2 = true ∧
    (GetStyle NewMakeupService styleID).1.ID = styleID := by
  simp only [catalogIds, List.mem_cons, List.mem_singleton, List.not_mem_nil, or_false] at h
  rcases h with h | h | h | h | h | h <;> subst h <;> decide

/-- C6 (counterexample): on a 4x4 image with the detected rectangle (2,2)-(6,6) the
pipeline extracts the region (2,2)-(6,6) itself, while the intersection of that
rectangle with the image bounds is (2,2)-(4,4). -/
theorem C6_counterexample :
    (ApplyMakeupStyle NewMakeupService sampleCv (sampleVision sampleFaceOutside) sampleCodec
      sampleLib (fun _ => some []) "r" "uploads/a.jpg" "natural").calls.head?
      = some (Call.Region sampleFaceOutside) ∧
    sampleFaceOutside.Intersect sampleMat.bounds = ⟨⟨2, 2⟩, ⟨4, 4⟩⟩ ∧
    (ApplyMakeupStyle NewMakeupService sampleCv (sampleVision sampleFaceOutside) sampleCodec
      sampleLib (fun _ => some []) "r" "uploads/a.jpg" "natural").calls.head?
      ≠ some (Call.Region (sampleFaceOutside.Intersect sampleMat.bounds)) := by
  decide

theorem applyMakeupToFace_head (cv : Cv) (img : Mat) (face : Rectangle) (style : MakeupStyle) :
    (applyMakeupToFace cv img face style).1.head? = some (Call.Region face) := by
  unfold applyMakeupToFace
  by_cases hface : img.ValidRegion face
  · simp only [Mat.Region, if_pos hface]
    split_ifs <;>
      simp [applyNaturalMakeup, applyBridalMakeup, applyEditorialMakeup, applyEveningMakeup,
        applyProfessionalMakeup, applyCreativeMakeup, enhanceSkin, enhanceLips, enhanceEyes,
        addBlush, addContouring, addShimmer, addCreativeElements, View.log, View.write]
  · simp [Mat.Region, hface]

theorem Intersect_of_valid (img : Mat) (face : Rectangle) (hface : img.ValidRegion face)
    (hne : face.Empty = false) : face.Intersect img.bounds = face := by
  obtain ⟨⟨x0, y0⟩, ⟨x1, y1⟩⟩ := face
  simp only [Mat.ValidRegion, Rectangle.Dx, Rectangle.Dy] at hface
  obtain ⟨h1, h2, h3, h4, h5, h6⟩ := hface
  have e1 : max x0 0 = x0 := max_eq_left h1
  have e2 : max y0 0 = y0 := max_eq_left h4
  have e3 : min x1 (img.cols : Int) = x1 := min_eq_left (by omega)
  have e4 : min y1 (img.rows : Int) = y1 := min_eq_left (by omega)
  simp only [Rectangle.Intersect, Mat.bounds, e1, e2, e3, e4, hne]
  simp

/-- C6 (amended): whenever the pipeline reaches the detector and it returns a first
rectangle, the rectangle passed to the region extraction is that rectangle as
detected, without clipping; it is the intersection of the detected rectangle with the
image bounds when the detected rectangle is not empty and lies inside the image. -/
theorem C6_region_is_detected (ms : MakeupService) (cv : Cv) (vision : Vision)
    (codec : ImageLib) (lib : GoLib) (fs : FS) (resultID imagePath styleID : String)
    (face : Rectangle) (rest : List Rectangle)
    (hstyle : (GetStyle ms styleID).2 = true)
    (himg : (vision.IMRead (fs imagePath)).Empty = false)
    (hload : vision.Load "haarcascade_frontalface_alt.xml" = true)
    (hdet : vision.DetectMultiScale (vision.IMRead (fs imagePath)) = face :: rest) :
    (ApplyMakeupStyle ms cv vision codec lib fs resultID imagePath styleID).calls.head?
      = some (Call.Region face) ∧
    ((vision.IMRead (fs imagePath)).ValidRegion face → face.Empty = false →
      face.Intersect (vision.IMRead (fs imagePath)).bounds = face) := by
  refine ⟨?_, fun hv hne => Intersect_of_valid _ _ hv hne⟩
  have hh := applyMakeupToFace_head cv (vision.IMRead (fs imagePath)) face (GetStyle ms styleID).1
  simp only [ApplyMakeupStyle, hstyle, himg, hload, hdet]
  rcases hp : applyMakeupToFace cv (vision.IMRead (fs imagePath)) face (GetStyle ms styleID).1
    with ⟨calls, r⟩
  rw [hp] at hh
  simp only at hh
  cases r with
  | none => simpa using hh
  | some resultImg =>
    simp only [Bool.not_eq_true, Bool.false_eq_true, not_false_eq_true, if_false]
    split
    · exact absurd trivial ‹_›
    · split
      · exact hh
      · split
        · exact hh
        · split <;> exact hh

/-- Witness of C6 (amended) with the sample face inside the sample matrix. -/
theorem C6_region_is_detected_witness :
    (ApplyMakeupStyle NewMakeupService sampleCv (sampleVision sampleFace) sampleCodec
      sampleLib (fun _ => some []) "r" "uploads/a.jpg" "natural").calls.head?
      = some (Call.Region sampleFace) :=
  (C6_region_is_detected NewMakeupService sampleCv (sampleVision sampleFace) sampleCodec
    sampleLib (fun _ => some []) "r" "uploads/a.jpg" "natural" sampleFace []
    (by decide) (by decide) (by decide) (by decide)).1

theorem applyMakeupToFace_default (cv : Cv) (img : Mat) (face : Rectangle)
    (style : MakeupStyle) (hid : style.ID ∉ catalogIds) :
    applyMakeupToFace cv img face style =
      applyMakeupToFace cv img face (styleWithId "natural") := by
  simp only [catalogIds, List.mem_cons, List.mem_singleton, List.not_mem_nil, or_false,
    not_or] at hid
  obtain ⟨h1, h2, h3, h4, h5, h6⟩ := hid
  simp [applyMakeupToFace, styleWithId, h1, h2, h3, h4, h5, h6]

/-- C7 (counterexample): on the sample image with one face, the pipeline entry point
returns a result path for the natural style and runs its operations, but for the id
unknown it returns the error that the style is not found and runs no operation. -/
theorem C7_counterexample :
    (ApplyMakeupStyle NewMakeupService sampleCv (sampleVision sampleFace) sampleCodec
      sampleLib (fun _ => some []) "r" "uploads/a.jpg" "natural").result
      = .ok "uploads/results/r.jpg" ∧
    (ApplyMakeupStyle NewMakeupService sampleCv (sampleVision sampleFace) sampleCodec
      sampleLib (fun _ => some []) "r" "uploads/a.jpg" "unknown").result
      = .error "style unknown not found" ∧
    opsOf (ApplyMakeupStyle NewMakeupService sampleCv (sampleVision sampleFace) sampleCodec
      sampleLib (fun _ => some []) "r" "uploads/a.jpg" "natural").calls
      ≠ opsOf (ApplyMakeupStyle NewMakeupService sampleCv (sampleVision sampleFace)
        sampleCodec sampleLib (fun _ => some []) "r" "uploads/a.jpg" "unknown").calls := by
  refine ⟨by rfl, by rfl, by decide⟩

/-- C7 (amended): the dispatch inside `applyMakeupToFace` treats every style whose id is
not one of the six catalog ids as natural, with the same calls and the same returned
matrix; the entry point `ApplyMakeupStyle` of the service rejects such an id with the
error that the style is not found, leaves the file system as it is and runs no operation. -/
theorem C7_unknown_style (styleID : String) (hid : styleID ∉ catalogIds) :
    (∀ (cv : Cv) (img : Mat) (face : Rectangle) (style : MakeupStyle), style.ID = styleID →
      applyMakeupToFace cv img face style =
        applyMakeupToFace cv img face (styleWithId "natural")) ∧
    (∀ (cv : Cv) (vision : Vision) (codec : ImageLib) (lib : GoLib) (fs : FS)
      (resultID imagePath : String),
      (ApplyMakeupStyle NewMakeupService cv vision codec lib fs resultID imagePath styleID).fs
        = fs ∧
      (ApplyMakeupStyle NewMakeupService cv vision codec lib fs resultID imagePath
        styleID).calls = [] ∧
      (ApplyMakeupStyle NewMakeupService cv vision codec lib fs resultID imagePath
        styleID).result = .error ("style " ++ styleID ++ " not found")) := by
  constructor
  · intro cv img face style hs
    exact applyMakeupToFace_default cv img face style (by rw [hs]; exact hid)
  · intro cv vision codec lib fs resultID imagePath
    have h := GetStyle_unknown styleID hid
    simp [ApplyMakeupStyle, h]

/-- Witness of C7 (amended) for the id unknown. -/
theorem C7_unknown_style_witness :
    applyMakeupToFace sampleCv sampleMat sampleFace (styleWithId "unknown") =
      applyMakeupToFace sampleCv sampleMat sampleFace (styleWithId "natural") :=
  (C7_unknown_style "unknown" (by decide)).1 sampleCv sampleMat sampleFace
    (styleWithId "unknown") rfl

/-- C8 (counterexample): in the bridal sequence the constant-colour overlay `add_blush`
runs after the morphological operation `enhance_eyes`. -/
theorem C8_counterexample :
    opsOf (applyMakeupToFace sampleCv sampleMat sampleFace (styleWithId "bridal")).1 =
      [.smooth_skin 0.2, .tint_overlay 255 150 150, .enhance_eyes 0.1, .add_blush 255 180 180] ∧
    ¬ allBefore Op.isOverlay Op.isMorph
      (opsOf (applyMakeupToFace sampleCv sampleMat sampleFace (styleWithId "bridal")).1) := by
  have h := opsOf_applyMakeupToFace sampleCv sampleMat sampleFace (styleWithId "bridal")
    (by decide) (by decide)
  refine ⟨h, ?_⟩
  rw [h]
  unfold allBefore
  decide

/-- C8 (amended): in the operation sequence of every one of the six styles, `smooth_skin`
comes before every constant-colour overlay and `tint_overlay` comes before every
morphological or filter operation; in the five styles other than bridal every
constant-colour overlay comes before every morphological or filter operation, and the
bridal sequence ends with `enhance_eyes` followed by `add_blush`. -/
theorem C8_operation_order (cv : Cv) (img : Mat) (face : Rectangle) (style : MakeupStyle)
    (hid : style.ID ∈ catalogIds) (hface : img.ValidRegion face) :
    allBefore Op.isSmooth Op.isOverlay (opsOf (applyMakeupToFace cv img face style).1) ∧
    allBefore Op.isTint Op.isMorph (opsOf (applyMakeupToFace cv img face style).1) ∧
    (style.ID ≠ "bridal" →
      allBefore Op.isOverlay Op.isMorph (opsOf (applyMakeupToFace cv img face style).1)) ∧
    (style.ID = "bridal" →
      opsOf (applyMakeupToFace cv img face style).1 =
        [.smooth_skin 0.2, .tint_overlay 255 150 150, .enhance_eyes 0.1,
          .add_blush 255 180 180]) := by
  rw [opsOf_applyMakeupToFace cv img face style hid hface]
  simp only [catalogIds, List.mem_cons, List.mem_singleton, List.not_mem_nil, or_false] at hid
  unfold allBefore
  rcases hid with h | h | h | h | h | h <;> rw [h] <;>
    refine ⟨by decide, by decide, by decide, fun hc => ?_⟩ <;>
    first
      | rfl
      | exact absurd hc (by decide)

/-- Witness of C8 (amended) for the evening style on the sample matrix and face. -/
theorem C8_operation_order_witness :
    allBefore Op.isOverlay Op.isMorph
      (opsOf (applyMakeupToFace sampleCv sampleMat sampleFace (styleWithId "evening")).1) :=
  (C8_operation_order sampleCv sampleMat sampleFace (styleWithId "evening")
    (by decide) (by decide)).2.2.1 (by decide)

/-! ## Upload validation -/

theorem formatAllowed_iff (lowered : String) (l : List String) :
    formatAllowed lowered l = true ↔ lowered ∈ l := by
  induction l with
  | nil => simp [formatAllowed]
  | cons a rest ih =>
    unfold formatAllowed
    by_cases h : lowered = a
    · simp [h]
    · simp [h, ih]

/-- C9: `ValidateImageFormat` returns no error exactly when the lower-cased format is one
of jpg, jpeg, png and webp, and otherwise returns the error whose message is
"unsupported image format: " followed by the format as given. -/
theorem C9_validate_format (lib : GoLib) (format : String) :
    (ValidateImageFormat lib format = none ↔
      lib.ToLower format ∈ ["jpg", "jpeg", "png", "webp"]) ∧
    (lib.ToLower format ∉ ["jpg", "jpeg", "png", "webp"] →
      ValidateImageFormat lib format = some ("unsupported image format: " ++ format)) ∧
    ValidateImageFormat sampleLib "PNG" = none ∧
    ValidateImageFormat sampleLib "JpEg" = none ∧
    ValidateImageFormat sampleLib "gif" = some "unsupported image format: gif" := by
  refine ⟨?_, ?_, by decide, by decide, by decide⟩
  · unfold ValidateImageFormat
    simp only
    rw [← formatAllowed_iff]
    by_cases h : formatAllowed (lib.ToLower format) ["jpg", "jpeg", "png", "webp"] = true
    · simp [h]
    · simp [h]
  · intro h
    rw [← formatAllowed_iff] at h
    unfold ValidateImageFormat
    simp only [h]
    simp

theorem splitFirstComma_none (l : List Char) (h : ',' ∉ l) : splitFirstComma l = none := by
  induction l with
  | nil => rfl
  | cons c cs ih =>
    simp only [List.mem_cons, not_or] at h
    unfold splitFirstComma
    rw [if_neg (Ne.symm h.1), ih h.2]

theorem splitFirstComma_some (l : List Char) (h : ',' ∈ l) :
    ∃ before after, splitFirstComma l = some (before, after) ∧
      l.dropWhile notComma = ',' :: after := by
  induction l with
  | nil => simp at h
  | cons c cs ih =>
    unfold splitFirstComma
    by_cases hc : c = ','
    · subst hc
      refine ⟨[], cs, by simp, ?_⟩
      rw [List.dropWhile_cons_of_neg (by simp [notComma])]
    · have hmem : ',' ∈ cs := by
        rcases List.mem_cons.1 h with h1 | h1
        · exact absurd h1.symm hc
        · exact h1
      obtain ⟨b, a, e1, e2⟩ := ih hmem
      refine ⟨c :: b, a, by simp [hc, e1], ?_⟩
      rw [List.dropWhile_cons_of_pos (by simp [notComma, hc]), e2]

/-- Payload measured and decoded by the image service: the code of lines 34-39 and 92-97
yields the payload of the specification. -/
theorem payload_eq (imageData : String) :
    (if containsComma imageData then
      if (splitN2 imageData).length = 2 then (splitN2 imageData).getD 1 "" else imageData
    else imageData) = specPayload imageData := by
  by_cases h : ',' ∈ imageData.data
  · obtain ⟨b, a, e1, e2⟩ := splitFirstComma_some imageData.data h
    have hc : containsComma imageData = true := by simp [containsComma, h]
    simp [hc, splitN2, e1, specPayload, e2]
  · have hc : containsComma imageData = false := by simp [containsComma, h]
    have hd : imageData.data.dropWhile notComma = [] := by
      rw [List.dropWhile_eq_nil_iff]
      intro x hx
      have : x ≠ ',' := fun e => h (e ▸ hx)
      simp [notComma, this]
    simp [hc, specPayload, hd]

/-- C10: when the payload of the input (the text after the first comma if there is one,
otherwise the whole string) is valid base64, `ValidateImageSize` returns no error exactly
when the decoded length is at most 10485760 bytes and rejects a longer payload with an
"image too large" error; `SaveImageFromBase64` decodes the same payload: whenever it
returns an uploaded image, the file of that image holds exactly the decoded bytes and the
reported size is their length, which is what happens when the file can be created,
written and inspected; when the file cannot be created it writes nothing. -/
theorem C10_validate_size (lib : GoLib) (imageData : String) (decoded : Bytes)
    (hdec : lib.DecodeString (specPayload imageData) = .ok decoded) :
    (ValidateImageSize lib imageData = none ↔ decoded.length ≤ 10485760) ∧
    (decoded.length = 10485760 → ValidateImageSize lib imageData = none) ∧
    (10485760 < decoded.length →
      ValidateImageSize lib imageData =
        some ("image too large: " ++ toString decoded.length ++ " bytes (max " ++
          toString 10485760 ++ " bytes)")) ∧
    (∀ (fs : FS) (imageID format : String) (u : UploadedImage),
      (SaveImageFromBase64 lib fs imageID imageData format).2 = .ok u →
      u.FilePath = lib.Join "uploads" (imageID ++ "." ++ format) ∧
      (SaveImageFromBase64 lib fs imageID imageData format).1 u.FilePath = some decoded ∧
      (SaveImageFromBase64 lib fs imageID imageData format).1 =
        fs.write u.FilePath decoded ∧
      u.Size = decoded.length) ∧
    (∀ (fs : FS) (imageID format : String),
      lib.Create (lib.Join "uploads" (imageID ++ "." ++ format)) = none →
      (lib.Write (lib.Join "uploads" (imageID ++ "." ++ format)) decoded).2 = none →
      lib.Stat (lib.Join "uploads" (imageID ++ "." ++ format)) = none →
      SaveImageFromBase64 lib fs imageID imageData format =
        (fs.write (lib.Join "uploads" (imageID ++ "." ++ format)) decoded,
          .ok ⟨imageID, imageID ++ "." ++ format,
            lib.Join "uploads" (imageID ++ "." ++ format), format, decoded.length⟩)) ∧
    (∀ (fs : FS) (imageID format : String) (err : String),
      lib.Create (lib.Join "uploads" (imageID ++ "." ++ format)) = some err →
      SaveImageFromBase64 lib fs imageID imageData format =
        (fs, .error ("failed to create file: " ++ err))) := by
  have hv : ValidateImageSize lib imageData =
      if decoded.length > 10485760 then
        some ("image too large: " ++ toString decoded.length ++ " bytes (max " ++
          toString 10485760 ++ " bytes)")
      else none := by
    unfold ValidateImageSize
    simp only [payload_eq, hdec]
  have hs : ∀ (fs : FS) (imageID format : String),
      SaveImageFromBase64 lib fs imageID imageData format =
        match lib.Create (lib.Join "uploads" (imageID ++ "." ++ format)) with
        | some err => (fs, .error ("failed to create file: " ++ err))
        | none =>
          match (lib.Write (lib.Join "uploads" (imageID ++ "." ++ format)) decoded).2 with
          | some err =>
            (fs.write (lib.Join "uploads" (imageID ++ "." ++ format))
              (lib.Write (lib.Join "uploads" (imageID ++ "." ++ format)) decoded).1,
              .error ("failed to write image data: " ++ err))
          | none =>
            match lib.Stat (lib.Join "uploads" (imageID ++ "." ++ format)) with
            | some err =>
              (fs.write (lib.Join "uploads" (imageID ++ "." ++ format)) decoded,
                .error ("failed to get file info: " ++ err))
            | none =>
              (fs.write (lib.Join "uploads" (imageID ++ "." ++ format)) decoded,
                .ok ⟨imageID, imageID ++ "." ++ format,
                  lib.Join "uploads" (imageID ++ "." ++ format), format, decoded.length⟩) := by
    intro fs imageID format
    unfold SaveImageFromBase64
    simp only [payload_eq, hdec, uploadDir]
  refine ⟨?_, ?_, ?_, ?_, ?_, ?_⟩
  · rw [hv]
    by_cases h : decoded.length > 10485760
    · simp [h]
    · simp [h]; omega
  · intro h
    rw [hv, h]; simp
  · intro h
    rw [hv, if_pos h]
  · intro fs imageID format u hu
    have e := hs fs imageID format
    cases hc : lib.Create (lib.Join "uploads" (imageID ++ "." ++ format)) with
    | some err =>
      rw [hc] at e
      rw [e] at hu
      simp at hu
    | none =>
      rw [hc] at e
      simp only at e
      cases hw : (lib.Write (lib.Join "uploads" (imageID ++ "." ++ format)) decoded).2 with
      | some err =>
        rw [hw] at e
        rw [e] at hu
        simp at hu
      | none =>
        rw [hw] at e
        simp only at e
        cases hst : lib.Stat (lib.Join "uploads" (imageID ++ "." ++ format)) with
        | some err =>
          rw [hst] at e
          rw [e] at hu
          simp at hu
        | none =>
          rw [hst] at e
          simp only at e
          rw [e] at hu ⊢
          simp only [Except.ok.injEq] at hu
          subst hu
          simp [FS.write]
  · intro fs imageID format h1 h2 h3
    rw [hs, h1]
    simp only [h2, h3]
  · intro fs imageID format err h1
    rw [hs, h1]

/-- Witness of C10 on a data URL whose payload has four characters. -/
theorem C10_validate_size_witness :
    ValidateImageSize sampleLib "data:image/png;base64,AAAA" = none :=
  (C10_validate_size sampleLib "data:image/png;base64,AAAA" [0, 0, 0, 0] (by rfl)).1.2
    (by decide)

/-! ## Style catalog -/

theorem foldl_append_snd (l : List (String × MakeupStyle)) (acc : List MakeupStyle) :
    l.foldl (fun styles kv => styles ++ [kv.2]) acc = acc ++ l.map Prod.snd := by
  induction l generalizing acc with
  | nil => simp
  | cons kv rest ih => simp [ih]

theorem GetAvailableStyles_perm (order : MapOrder) :
    (GetAvailableStyles order NewMakeupService).Perm initialStyles := by
  unfold GetAvailableStyles
  rw [foldl_append_snd, List.nil_append]
  have h := (order.perm NewMakeupService.styles).map Prod.snd
  rw [GetStyle_styles] at h
  simpa using h

/-- C11: for each of the six ids `GetStyle` returns exists=true with the style of that
id, whose name, category and intensity are those of the table of the specification and
whose intensity is between 1 and 10; for every other string, compared case-sensitively,
it returns exists=false; `GetAvailableStyles` returns exactly the six styles of the
table, each once, in whatever order the map is ranged over. -/
theorem C11_catalog_lookup :
    (∀ id name category intensity, (id, name, category, intensity) ∈ specCatalog →
      (GetStyle NewMakeupService id).2 = true ∧
      (GetStyle NewMakeupService id).1.ID = id ∧
      (GetStyle NewMakeupService id).1.Name = name ∧
      (GetStyle NewMakeupService id).1.Category = category ∧
      (GetStyle NewMakeupService id).1.Intensity = intensity ∧
      1 ≤ intensity ∧ intensity ≤ 10) ∧
    specCatalog.map (fun e => e.1) = catalogIds ∧
    (∀ styleID, styleID ∉ catalogIds → (GetStyle NewMakeupService styleID).2 = false) ∧
    (GetStyle NewMakeupService "Natural").2 = false ∧
    (GetStyle NewMakeupService "BRIDAL").2 = false ∧
    (∀ order : MapOrder,
      ((GetAvailableStyles order NewMakeupService).map
        (fun s => (s.ID, s.Name, s.Category, s.Intensity))).Perm specCatalog ∧
      (GetAvailableStyles order NewMakeupService).Nodup ∧
      (GetAvailableStyles order NewMakeupService).length = 6) := by
  refine ⟨?_, by decide, fun styleID h => GetStyle_unknown styleID h, by decide, by decide, ?_⟩
  · intro id name category intensity hmem
    simp only [specCatalog, List.mem_cons, List.mem_singleton, List.not_mem_nil, or_false,
      Prod.mk.injEq] at hmem
    rcases hmem with h | h | h | h | h | h <;>
      (obtain ⟨rfl, rfl, rfl, rfl⟩ := h; decide)
  · intro order
    have hp := GetAvailableStyles_perm order
    refine ⟨?_, ?_, ?_⟩
    · have := hp.map (fun s => (s.ID, s.Name, s.Category, s.Intensity))
      simpa [initialStyles, specCatalog] using this
    · exact (hp.nodup_iff).2 (by decide)
    · rw [hp.length_eq]; rfl

/-! ## Apply handler -/

/-- C12 (counterexample): a request to apply the style unknown with an empty body, for
which binding fails with EOF, is answered with status 400 and the message "Invalid
request format", not with 404. -/
theorem C12_counterexample :
    (ApplyMakeupStyleHandler NewMakeupService sampleCv (sampleVision sampleFace) sampleCodec
      sampleLib samplePaths (fun _ => none) "h" "r" 1 2 "unknown" (.error "EOF")).response.status
      = 400 ∧
    (ApplyMakeupStyleHandler NewMakeupService sampleCv (sampleVision sampleFace) sampleCodec
      sampleLib samplePaths (fun _ => none) "h" "r" 1 2 "unknown" (.error "EOF")).response.Message
      = "Invalid request format" := by
  constructor <;> rfl

/-- C12 (amended): for every request to the apply handler whose style parameter is not a
catalog id, the response is 404 with the message "Makeup style not found" when the body
binds to a request, and 400 with the message "Invalid request format" when it does not;
in both cases the pipeline is not called and the file system is left as it is. -/
theorem C12_unknown_style_response (styleID : String) (hid : styleID ∉ catalogIds)
    (cv : Cv) (vision : Vision) (codec : ImageLib) (lib : GoLib) (paths : PathLib) (fs : FS)
    (resultID serviceResultID : String) (created completed : Nat)
    (bound : Except String MakeupApplicationRequest) :
    (∀ req, bound = .ok req →
      (ApplyMakeupStyleHandler NewMakeupService cv vision codec lib paths fs resultID
        serviceResultID created completed styleID bound).response.status = 404 ∧
      (ApplyMakeupStyleHandler NewMakeupService cv vision codec lib paths fs resultID
        serviceResultID created completed styleID bound).response.Message
        = "Makeup style not found" ∧
      (ApplyMakeupStyleHandler NewMakeupService cv vision codec lib paths fs resultID
        serviceResultID created completed styleID bound).response.Error
        = "Style " ++ styleID ++ " does not exist") ∧
    (∀ err, bound = .error err →
      (ApplyMakeupStyleHandler NewMakeupService cv vision codec lib paths fs resultID
        serviceResultID created completed styleID bound).response.status = 400 ∧
      (ApplyMakeupStyleHandler NewMakeupService cv vision codec lib paths fs resultID
        serviceResultID created completed styleID bound).response.Message
        = "Invalid request format") ∧
    (ApplyMakeupStyleHandler NewMakeupService cv vision codec lib paths fs resultID
      serviceResultID created completed styleID bound).opened = none ∧
    (ApplyMakeupStyleHandler NewMakeupService cv vision codec lib paths fs resultID
      serviceResultID created completed styleID bound).fs = fs := by
  have h := GetStyle_unknown styleID hid
  cases bound with
  | error err => simp [ApplyMakeupStyleHandler]
  | ok req => simp [ApplyMakeupStyleHandler, h]

/-- Witness of C12 (amended) for the style unknown and a body that binds. -/
theorem C12_unknown_style_response_witness :
    (ApplyMakeupStyleHandler NewMakeupService sampleCv (sampleVision sampleFace) sampleCodec
      sampleLib samplePaths (fun _ => none) "h" "r" 1 2 "unknown"
      (.ok ⟨"a", "unknown"⟩)).response.status = 404 :=
  ((C12_unknown_style_response "unknown" (by decide) sampleCv (sampleVision sampleFace)
    sampleCodec sampleLib samplePaths (fun _ => none) "h" "r" 1 2
    (.ok ⟨"a", "unknown"⟩)).1 ⟨"a", "unknown"⟩ rfl).1

theorem ApplyMakeupStyleHandler_opened (ms : MakeupService) (cv : Cv) (vision : Vision)
    (codec : ImageLib) (lib : GoLib) (paths : PathLib) (fs : FS)
    (resultID serviceResultID : String) (created completed : Nat) (styleID : String)
    (req : MakeupApplicationRequest) (path : String)
    (h : (ApplyMakeupStyleHandler ms cv vision codec lib paths fs resultID serviceResultID
      created completed styleID (.ok req)).opened = some path) :
    path = lib.Join "uploads" (req.ImageID ++ ".jpg") := by
  simp only [ApplyMakeupStyleHandler] at h
  by_cases h1 : (GetStyle ms styleID).2 = true
  · simp only [h1, not_true_eq_false, if_false] at h
    cases hA : paths.Abs (lib.Join "uploads" (req.ImageID ++ ".jpg")) with
    | error e =>
      rw [hA] at h
      simp at h
    | ok v =>
      rw [hA] at h
      simp only at h
      split at h <;> simpa using h.symm
  · simp [h1] at h

/-- C13 (code at the failing input): an image saved by the upload with the format png and
the id a is written to uploads/a.png, and the apply handler passes uploads/a.jpg to the
pipeline for that id; whenever the handler reaches the pipeline, the path it passes is
`uploads/<id>.jpg`, which is the path of the upload when the format is exactly jpg. -/
theorem C13_apply_path :
    ValidateImageFormat sampleLib "png" = none ∧
    ((SaveImageFromBase64 sampleLib (fun _ => none) "a" "AAAA" "png").2.toOption.map
      (fun u => u.FilePath)) = some "uploads/a.png" ∧
    (ApplyMakeupStyleHandler NewMakeupService sampleCv (sampleVision sampleFace) sampleCodec
      sampleLib samplePaths
      (SaveImageFromBase64 sampleLib (fun _ => none) "a" "AAAA" "png").1
      "h" "r" 1 2 "natural" (.ok ⟨"a", "natural"⟩)).opened = some "uploads/a.jpg" ∧
    (∀ (ms : MakeupService) (cv : Cv) (vision : Vision) (codec : ImageLib) (lib : GoLib)
      (paths : PathLib) (fs : FS) (resultID serviceResultID : String) (created completed : Nat)
      (styleID : String) (req : MakeupApplicationRequest) (path : String),
      (ApplyMakeupStyleHandler ms cv vision codec lib paths fs resultID serviceResultID
        created completed styleID (.ok req)).opened = some path →
      path = lib.Join "uploads" (req.ImageID ++ ".jpg")) ∧
    (∀ (lib : GoLib) (fs : FS) (imageID imageData : String) (u : UploadedImage),
      (SaveImageFromBase64 lib fs imageID imageData "jpg").2 = .ok u →
      u.FilePath = lib.Join "uploads" (imageID ++ ".jpg")) := by
  refine ⟨by decide, by rfl, by rfl, ?_, ?_⟩
  · intro ms cv vision codec lib paths fs resultID serviceResultID created completed styleID
      req path h
    exact ApplyMakeupStyleHandler_opened ms cv vision codec lib paths fs resultID
      serviceResultID created completed styleID req path h
  · intro lib fs imageID imageData u h
    unfold SaveImageFromBase64 at h
    simp only at h
    split at h
    · simp at h
    · split at h
      · simp at h
      · split at h
        · simp at h
        · split at h
          · simp at h
          · simp only [Except.ok.injEq] at h
            rw [← h]
            simp [uploadDir, String.append_assoc]

/-! ## ResizeImage: sampling -/

theorem srcCoord_lt (x size newSize : Nat) (hx : x < newSize) (hs : 0 < size) :
    srcCoord x size newSize < size := by
  unfold srcCoord
  apply Nat.div_lt_of_lt_mul
  exact Nat.mul_lt_mul_of_pos_right hx hs

/-- C14: with positive source dimensions and positive new dimensions, for every
destination pixel inside the new image the source coordinates of the nearest-neighbour
sampling lie inside the source image, the divisors are not zero, the pixel written is the
source pixel at those coordinates, and for sizes below 2^31 the products stay below 2^62. -/
theorem C14_sampling_in_bounds (w h newW newH x y : Nat) (hw : 0 < w) (hh : 0 < h)
    (hnw : 0 < newW) (hnh : 0 < newH) (hx : x < newW) (hy : y < newH) :
    srcCoord x w newW < w ∧ srcCoord y h newH < h ∧
    0 ≤ srcCoord x w newW ∧ 0 ≤ srcCoord y h newH ∧
    newW ≠ 0 ∧ newH ≠ 0 ∧
    (∀ img : Image, img.width = w → img.height = h →
      (resample img newW newH).At x y = img.At (srcCoord x w newW) (srcCoord y h newH)) ∧
    (w < 2 ^ 31 → h < 2 ^ 31 → newW < 2 ^ 31 → newH < 2 ^ 31 →
      x * w < 2 ^ 62 ∧ y * h < 2 ^ 62) := by
  refine ⟨srcCoord_lt x w newW hx hw, srcCoord_lt y h newH hy hh, Nat.zero_le _,
    Nat.zero_le _, by omega, by omega, ?_, ?_⟩
  · intro img h1 h2
    subst h1 h2
    simp [resample, hx, hy]
  · intro a b c d
    have e1 : x * w < 2 ^ 31 * 2 ^ 31 := Nat.mul_lt_mul'' (by omega) a
    have e2 : y * h < 2 ^ 31 * 2 ^ 31 := Nat.mul_lt_mul'' (by omega) b
    norm_num at e1 e2 ⊢
    exact ⟨e1, e2⟩

/-- Witness of C14 for the last pixel of a 4000x2000 image resized to 1920x960. -/
theorem C14_sampling_in_bounds_witness :
    srcCoord 1919 4000 1920 < 4000 ∧ srcCoord 959 2000 960 < 2000 :=
  let t := C14_sampling_in_bounds 4000 2000 1920 960 1919 959 (by decide) (by decide)
    (by decide) (by decide) (by decide) (by decide)
  ⟨t.1, t.2.1⟩
